import Mathlib

/-!
Shallow embedding of the NebulaFS single-node object-storage service
(C++ sources under src/) and proofs about its claimed behaviour.

Modelling conventions
* A C++ `std::string` is embedded as `List Char` (`Str` below); all the
  strings the service manipulates are ASCII.
* Raw object bytes are embedded as `List Nat` (each entry a byte value).
* SHA-256 (Poco::SHA2Engine256) is external library code; handlers are
  parameterised by a hash function `sha256hex : List Nat → Str` and the
  theorems show which byte sequence that function is applied to.
* Fallible C++ calls are embedded as `Except`/`Option` values; an
  exception that the source does not catch is a distinct outcome.
* Machine integers (`std::uint64_t`, `int`) are embedded as `Nat`/`Int`;
  none of the claims exercises overflow, and divergences on the wrapped
  domain are noted in comments where they could matter.
-/

namespace NebulaFS

abbrev Str := List Char

/-- Canonical error codes, from `include/nebulafs/core/error.h`
(`core::ErrorCode`). -/
inductive ErrorCode where
  | ok
  | invalidArgument
  | notFound
  | alreadyExists
  | ioError
  | dbError
  | unauthorized
  | forbidden
  | internal
deriving Repr, DecidableEq

/-! ## Path/name guard (`src/storage/local_storage.cpp`) -/

/-- ASCII `std::isalnum` under the default "C" locale, as invoked on
`unsigned char` in `LocalStorage::IsSafeName`. -/
def isalnumAscii (c : Char) : Bool :=
  (48 ≤ c.toNat && c.toNat ≤ 57) ||
  (65 ≤ c.toNat && c.toNat ≤ 90) ||
  (97 ≤ c.toNat && c.toNat ≤ 122)

/-- Character class accepted by the loop in `LocalStorage::IsSafeName`
(`std::isalnum(c) || c == '-' || c == '_' || c == '.'`). -/
def isSafeChar (c : Char) : Bool :=
  isalnumAscii c || c == '-' || c == '_' || c == '.'

/-- Embeds `LocalStorage::IsSafeName` (src/storage/local_storage.cpp,
lines 136-149): reject empty or >255-char names, any character outside
the safe class, and the exact names "." and "..". -/
def isSafeName (name : Str) : Bool :=
  if name.isEmpty || name.length > 255 then false
  else if !(name.all isSafeChar) then false
  else if name == ['.'] || name == ['.', '.'] then false
  else true

/-- C4: `is_safe_name(n)` returns true iff `n` is non-empty, at most 255
characters, drawn from `[A-Za-z0-9_.-]` only, and not equal to "." or
"..";  in particular it rejects "", ".", "..", "a/b", "x\0y", strings
with a character outside the class, and strings longer than 255. -/
theorem C4_isSafeName_iff :
    (∀ name : Str,
       isSafeName name = true ↔
         name ≠ [] ∧ name.length ≤ 255 ∧ (∀ c ∈ name, isSafeChar c = true) ∧
           name ≠ ['.'] ∧ name ≠ ['.', '.']) ∧
    isSafeName [] = false ∧
    isSafeName ['.'] = false ∧
    isSafeName ['.', '.'] = false ∧
    isSafeName ['a', '/', 'b'] = false ∧
    isSafeName ['x', Char.ofNat 0, 'y'] = false ∧
    isSafeName (List.replicate 256 'a') = false := by
  refine ⟨?_, by decide, by decide, by decide, by decide, by decide, ?_⟩
  · intro name
    unfold isSafeName
    by_cases hA : (name.isEmpty || decide (name.length > 255)) = true
    · rw [if_pos hA]
      simp only [Bool.or_eq_true, List.isEmpty_eq_true, decide_eq_true_eq] at hA
      constructor
      · intro h
        exact absurd h (by simp)
      · rintro ⟨h1, h2, -, -, -⟩
        exfalso
        rcases hA with h | h
        · exact h1 h
        · omega
    · rw [if_neg hA]
      simp only [Bool.or_eq_true, List.isEmpty_eq_true, decide_eq_true_eq, not_or] at hA
      obtain ⟨hne, hlen⟩ := hA
      by_cases hB : (!name.all isSafeChar) = true
      · rw [if_pos hB]
        simp only [Bool.not_eq_true', Bool.not_eq_false] at hB
        constructor
        · intro h
          exact absurd h (by simp)
        · rintro ⟨-, -, h3, -, -⟩
          exfalso
          have hall : name.all isSafeChar = true := List.all_eq_true.mpr h3
          rw [hall] at hB
          exact absurd hB (by simp)
      · rw [if_neg hB]
        simp only [Bool.not_eq_true', Bool.not_eq_false] at hB
        by_cases hC : (name == ['.'] || name == ['.', '.']) = true
        · rw [if_pos hC]
          simp only [Bool.or_eq_true, beq_iff_eq] at hC
          constructor
          · intro h
            exact absurd h (by simp)
          · rintro ⟨-, -, -, h4, h5⟩
            exfalso
            rcases hC with h | h
            · exact h4 h
            · exact h5 h
        · rw [if_neg hC]
          simp only [Bool.or_eq_true, beq_iff_eq, not_or] at hC
          constructor
          · intro _
            exact ⟨hne, by omega, List.all_eq_true.mp hB, hC.1, hC.2⟩
          · intro _
            rfl
  · unfold isSafeName
    rw [if_pos (by rw [List.length_replicate]; rfl)]

/-! ## Range GET (`src/http/http_server.cpp`) -/

/-- Result of `ParseRange` on success: C++ `RangeRequest { start, end }`
(the second field is named `end` in the source, a Lean keyword). -/
structure RangeRequest where
  start : Nat
  last : Nat
deriving Repr, DecidableEq

/-- Models `std::stoull` as invoked by `ParseRange`: parse the leading
decimal digits, throwing (`Except.error`) when the string does not start
with a digit.  (The C++ function also accepts leading whitespace and a
sign and throws on overflow of `unsigned long long`; the range headers
the handler is specified on are plain digit strings.) -/
def stoullNat (s : Str) : Except Unit Nat :=
  let digits := s.takeWhile (fun c => c.isDigit)
  if digits.isEmpty then Except.error ()
  else Except.ok (digits.foldl (fun acc c => acc * 10 + (c.toNat - 48)) 0)

/-- Embeds `ParseRange` (src/http/http_server.cpp, lines 82-109).
`Except.error` is a `std::stoull` exception escaping the function (the
source has no try/catch around it).  `Except.ok none` is the C++
`std::nullopt`.  When `end_str` is empty the C++ code computes
`size - 1` on `std::uint64_t`; for `size = 0` that wraps to `2^64 - 1`
where the Lean `Nat` subtraction gives `0`, but both choices are
rejected by the subsequent `start >= size` test, so the results agree. -/
def parseRange (header : Str) (size : Nat) : Except Unit (Option RangeRequest) :=
  if header.take 6 ≠ "bytes=".toList then Except.ok none
  else
    let range := header.drop 6
    match range.findIdx? (fun c => c == '-') with
    | none => Except.ok none
    | some dash =>
      let startStr := range.take dash
      let endStr := range.drop (dash + 1)
      if startStr.isEmpty then Except.ok none
      else
        match stoullNat startStr with
        | Except.error u => Except.error u
        | Except.ok s =>
          match (if endStr.isEmpty then Except.ok (size - 1) else stoullNat endStr) with
          | Except.error u => Except.error u
          | Except.ok e =>
            if s > e ∨ s ≥ size then Except.ok none
            else Except.ok (some ⟨s, e⟩)

/-- Decimal rendering of a `Nat`, used to build the header strings the
handler produces with `std::to_string`. -/
def natStr (n : Nat) : Str := (Nat.repr n).toList

/-- Content-Range header value of the 416 response:
`"bytes */" + std::to_string(size)`. -/
def contentRange416 (size : Nat) : Str :=
  "bytes */".toList ++ natStr size

/-- Content-Range header value of the 206 response:
`"bytes " + start + "-" + end + "/" + size`. -/
def contentRange206 (s e size : Nat) : Str :=
  "bytes ".toList ++ natStr s ++ "-".toList ++ natStr e ++ "/".toList ++ natStr size

/-- Observable outcome of `Session::HandleDownload`: an HTTP response
(status, optional Content-Range header, Content-Length, body bytes
actually available to stream) or an escaped exception. -/
inductive DlOut where
  | resp (status : Nat) (contentRange : Option Str) (contentLength : Nat) (body : List Nat)
  | exc
deriving Repr, DecidableEq

/-- Embeds `Session::HandleDownload` (src/http/http_server.cpp, lines
487-540) for an object whose on-disk bytes are `bytes` (`found` is the
`storage_->ReadObject` outcome).  Error responses carry a JSON envelope
body that is not modelled (shown as `[]` with length 0).  For the 206
response the served bytes are the file content from the seek offset,
truncated to what the file actually holds (`content_length` is declared
from the range arithmetic regardless). -/
def handleDownload (bytes : List Nat) (found : Bool) (rangeHeader : Option Str) : DlOut :=
  if !found then DlOut.resp 404 none 0 []
  else
    let size := bytes.length
    match rangeHeader with
    | none => DlOut.resp 200 none size bytes
    | some h =>
      match parseRange h size with
      | Except.error _ => DlOut.exc
      | Except.ok none => DlOut.resp 416 (some (contentRange416 size)) 0 []
      | Except.ok (some r) =>
        let len := r.last - r.start + 1
        DlOut.resp 206 (some (contentRange206 r.start r.last size)) len
          ((bytes.drop r.start).take len)

/-- A list with no dash has no dash index. -/
lemma findIdx?_no_dash (sstr : Str) (h : '-' ∉ sstr) :
    sstr.findIdx? (fun c => c == '-') = none := by
  rw [List.findIdx?_eq_none_iff]
  intro c hc
  simp only [beq_eq_false_iff_ne, ne_eq]
  exact fun heq => h (heq ▸ hc)

/-- The first dash of `sstr ++ '-' :: rest` sits right after `sstr`
when `sstr` itself has no dash. -/
lemma findIdx?_dash (sstr rest : Str) (h : '-' ∉ sstr) :
    (sstr ++ '-' :: rest).findIdx? (fun c => c == '-') = some sstr.length := by
  rw [List.findIdx?_append, findIdx?_no_dash sstr h]
  simp [List.findIdx?_cons]

/-- Dropping past the dash of `sstr ++ '-' :: rest` leaves `rest`. -/
lemma drop_past_dash (sstr rest : Str) :
    (sstr ++ '-' :: rest).drop (sstr.length + 1) = rest := by
  have h1 : sstr ++ '-' :: rest = (sstr ++ ['-']) ++ rest := by simp
  have h2 : sstr.length + 1 = (sstr ++ ['-']).length := by simp
  rw [h1, h2, List.drop_left]

/-- Reduction of `parseRange` on a well-formed `bytes=start-end` header:
the outcome is decided by the numeric values of the two substrings. -/
lemma parseRange_split (sstr estr : Str) (size s e : Nat) (hnd : '-' ∉ sstr)
    (hne : sstr ≠ []) (hs : stoullNat sstr = Except.ok s)
    (he : (if estr.isEmpty then Except.ok (size - 1) else stoullNat estr) = Except.ok e) :
    parseRange ("bytes=".toList ++ sstr ++ '-' :: estr) size =
      if s > e ∨ s ≥ size then Except.ok none
      else Except.ok (some ⟨s, e⟩) := by
  have htake : ("bytes=".toList ++ (sstr ++ '-' :: estr)).take 6 = "bytes=".toList :=
    List.take_left "bytes=".toList (sstr ++ '-' :: estr)
  have hdrop : ("bytes=".toList ++ (sstr ++ '-' :: estr)).drop 6 = sstr ++ '-' :: estr :=
    List.drop_left "bytes=".toList (sstr ++ '-' :: estr)
  have hne' : sstr.isEmpty = false := by simpa [List.isEmpty_iff] using hne
  simp only [parseRange, List.append_assoc, htake, hdrop, ne_eq, not_true_eq_false,
    if_false, findIdx?_dash sstr estr hnd, List.take_left, drop_past_dash, hne',
    Bool.false_eq_true, hs, he]

/-- Missing start offset: `bytes=-rest` parses to `nullopt`. -/
lemma parseRange_missing_start (rest : Str) (size : Nat) :
    parseRange ("bytes=".toList ++ '-' :: rest) size = Except.ok none := by
  have htake : ("bytes=".toList ++ '-' :: rest).take 6 = "bytes=".toList :=
    List.take_left "bytes=".toList ('-' :: rest)
  have hdrop : ("bytes=".toList ++ '-' :: rest).drop 6 = '-' :: rest :=
    List.drop_left "bytes=".toList ('-' :: rest)
  have hfind : ('-' :: rest).findIdx? (fun c => c == '-') = some 0 := by
    simp [List.findIdx?_cons]
  simp only [parseRange, htake, hdrop, ne_eq, not_true_eq_false, if_false, hfind,
    List.take_zero, List.isEmpty_nil, if_true]

/-- The drop/take slice the handler streams equals the spec-side slice
`B[s..=e]` described entry by entry. -/
lemma slice_ofFn (B : List Nat) (s e : Nat) (hse : s ≤ e) (hlt : e < B.length) :
    (B.drop s).take (e - s + 1) =
      List.ofFn (fun i : Fin (e - s + 1) => B.getD (s + i.val) 0) := by
  apply List.ext_getElem
  · simp only [List.length_take, List.length_drop, List.length_ofFn]
    omega
  · intro i h1 h2
    have hi : i < e - s + 1 := by
      simpa using h2
    have hsi : s + i < B.length := by omega
    rw [List.getElem_take, List.getElem_drop, List.getElem_ofFn]
    rw [List.getD_eq_getElem B 0 hsi]

/-- A successful `stoullNat` needs a nonempty input. -/
lemma stoullNat_ok_ne_nil (s : Str) (n : Nat) (h : stoullNat s = Except.ok n) : s ≠ [] := by
  intro hnil
  subst hnil
  simp [stoullNat] at h

/-- C3: range GET semantics on an existing object of size `S = B.length`:
a missing start is rejected (416 with `Content-Range: bytes */S`);
a missing end defaults to `S-1`; `start > end` or `start ≥ S` yields 416
with `Content-Range: bytes */S`; otherwise the response is 206 with
`Content-Range: bytes start-end/S`, `Content-Length: end-start+1`, and
body `B[start..=end]`. -/
theorem C3_range_get (B : List Nat) (sstr estr : Str) (s e : Nat)
    (hs : stoullNat sstr = Except.ok s) (hnd : '-' ∉ sstr)
    (he : stoullNat estr = Except.ok e) :
    (∀ rest : Str,
      handleDownload B true (some ("bytes=".toList ++ '-' :: rest)) =
        DlOut.resp 416 (some (contentRange416 B.length)) 0 []) ∧
    (s < B.length →
      handleDownload B true (some ("bytes=".toList ++ sstr ++ ['-'])) =
        DlOut.resp 206 (some (contentRange206 s (B.length - 1) B.length))
          (B.length - 1 - s + 1)
          (List.ofFn (fun i : Fin (B.length - 1 - s + 1) => B.getD (s + i.val) 0))) ∧
    ((s > e ∨ s ≥ B.length) →
      handleDownload B true (some ("bytes=".toList ++ sstr ++ '-' :: estr)) =
        DlOut.resp 416 (some (contentRange416 B.length)) 0 []) ∧
    (s ≤ e → e < B.length →
      handleDownload B true (some ("bytes=".toList ++ sstr ++ '-' :: estr)) =
        DlOut.resp 206 (some (contentRange206 s e B.length)) (e - s + 1)
          (List.ofFn (fun i : Fin (e - s + 1) => B.getD (s + i.val) 0))) := by
  have hsne : sstr ≠ [] := stoullNat_ok_ne_nil sstr s hs
  have hestr : estr.isEmpty = false := by
    cases hx : estr with
    | nil =>
      subst hx
      simp [stoullNat] at he
    | cons a l =>
      simp
  refine ⟨?_, ?_, ?_, ?_⟩
  · intro rest
    simp only [handleDownload, Bool.not_true, Bool.false_eq_true, if_false,
      parseRange_missing_start rest B.length]
  · intro hlt
    have hsz : B.length ≠ 0 := by omega
    have hsplit := parseRange_split sstr [] B.length s (B.length - 1) hnd hsne hs
      (by simp)
    have hcond : ¬(s > B.length - 1 ∨ s ≥ B.length) := by omega
    simp only [handleDownload, Bool.not_true, Bool.false_eq_true, if_false, hsplit,
      if_neg hcond]
    rw [slice_ofFn B s (B.length - 1) (by omega) (by omega)]
  · intro hcond
    have hsplit := parseRange_split sstr estr B.length s e hnd hsne hs
      (by rw [hestr]; simp [he])
    simp only [handleDownload, Bool.not_true, Bool.false_eq_true, if_false, hsplit,
      if_pos hcond]
  · intro hse hlt
    have hcond : ¬(s > e ∨ s ≥ B.length) := by omega
    have hsplit := parseRange_split sstr estr B.length s e hnd hsne hs
      (by rw [hestr]; simp [he])
    simp only [handleDownload, Bool.not_true, Bool.false_eq_true, if_false, hsplit,
      if_neg hcond]
    rw [slice_ofFn B s e hse hlt]

/-- C3 witness at a concrete object and range. -/
theorem C3_range_get_witness :
    stoullNat ['3'] = Except.ok 3 ∧ '-' ∉ (['3'] : Str) ∧
      stoullNat ['5'] = Except.ok 5 ∧ (3 ≤ 5 ∧ 5 < 8) ∧
      handleDownload [10, 11, 12, 13, 14, 15, 16, 17] true
          (some ("bytes=".toList ++ ['3'] ++ '-' :: ['5'])) =
        DlOut.resp 206 (some (contentRange206 3 5 8)) 3
          (List.ofFn (fun i : Fin 3 => ([10, 11, 12, 13, 14, 15, 16, 17] : List Nat).getD (3 + i.val) 0)) := by
  refine ⟨rfl, by decide, rfl, by decide, ?_⟩
  have h := (C3_range_get [10, 11, 12, 13, 14, 15, 16, 17] ['3'] ['5'] 3 5
    rfl (by decide) rfl).2.2.2 (by decide) (by decide)
  simpa using h

/-- C9: a `bytes=s-e` range with `s < S`, `s ≤ e` but `e ≥ S` is not
rejected: the handler answers 206 with `Content-Range: bytes s-e/S` and
`Content-Length: e-s+1` — the end offset is never clamped to `S-1`, so
the declared length exceeds the `S - s` bytes the file can provide. -/
theorem C9_no_end_clamp (B : List Nat) (sstr estr : Str) (s e : Nat)
    (hs : stoullNat sstr = Except.ok s) (hnd : '-' ∉ sstr)
    (he : stoullNat estr = Except.ok e)
    (hlt : s < B.length) (hse : s ≤ e) (hge : B.length ≤ e) :
    handleDownload B true (some ("bytes=".toList ++ sstr ++ '-' :: estr)) =
      DlOut.resp 206 (some (contentRange206 s e B.length)) (e - s + 1) (B.drop s) ∧
    (B.drop s).length < e - s + 1 := by
  have hsne : sstr ≠ [] := stoullNat_ok_ne_nil sstr s hs
  have hestr : estr.isEmpty = false := by
    cases hx : estr with
    | nil =>
      subst hx
      simp [stoullNat] at he
    | cons a l =>
      simp
  have hsplit := parseRange_split sstr estr B.length s e hnd hsne hs
    (by rw [hestr]; simp [he])
  have hcond : ¬(s > e ∨ s ≥ B.length) := by omega
  constructor
  · simp only [handleDownload, Bool.not_true, Bool.false_eq_true, if_false, hsplit,
      if_neg hcond]
    rw [List.take_of_length_le (by rw [List.length_drop]; omega)]
  · rw [List.length_drop]
    omega

/-- C9 witness: object of 4 bytes, range `bytes=2-9`. -/
theorem C9_no_end_clamp_witness :
    stoullNat ['2'] = Except.ok 2 ∧ '-' ∉ (['2'] : Str) ∧
      stoullNat ['9'] = Except.ok 9 ∧ (2 < 4 ∧ 2 ≤ 9 ∧ 4 ≤ 9) ∧
      handleDownload [20, 21, 22, 23] true
          (some ("bytes=".toList ++ ['2'] ++ '-' :: ['9'])) =
        DlOut.resp 206 (some (contentRange206 2 9 4)) 8
          (([20, 21, 22, 23] : List Nat).drop 2) := by
  refine ⟨rfl, by decide, rfl, by decide, ?_⟩
  exact (C9_no_end_clamp [20, 21, 22, 23] ['2'] ['9'] 2 9 rfl (by decide) rfl
    (by decide) (by decide) (by decide)).1

/-! ## Multipart records and handlers (`src/http/route_registration.cpp`,
`src/metadata/sqlite_metadata_store.cpp`) -/

/-- Row of `multipart_uploads` (`metadata::MultipartUpload`); the
bookkeeping columns `id`, `created_at`, `updated_at` are omitted.
`expiresAt` embeds the ISO-8601 `expires_at` TEXT column as seconds:
the fixed-width UTC format produced by `NowIso8601WithOffsetSeconds`
compares lexicographically exactly as the underlying instants do. -/
structure MultipartUpload where
  uploadId : Str
  bucketId : Int
  objectName : Str
  state : Str
  expiresAt : Int
deriving Repr, DecidableEq

/-- Row of `multipart_parts` (`metadata::MultipartPart`); `id`,
`upload_id` and `created_at` omitted. -/
structure MultipartPart where
  partNumber : Int
  sizeBytes : Nat
  etag : Str
  tempPath : Str
deriving Repr, DecidableEq, Inhabited

/-- Validated entry of the complete request (C++ `CompletePart`). -/
structure CompletePart where
  partNumber : Int
  etag : Str
deriving Repr, DecidableEq

/-- One entry of the request's `parts` JSON array after Poco parsing.
A `none` field stands for a missing key: `getValue` throws, and the
`try` block around `ParseCompleteParts` catches it. -/
structure RawPart where
  partNumber : Option Int
  etag : Option Str
deriving Repr, DecidableEq

/-- Loop of `ParseCompleteParts` (route_registration.cpp, lines 131-148)
with the C++ `previous` accumulator.  A `none` entry is a non-object
array element (`parts->getObject(i)` null). -/
def parseCompletePartsLoop (entries : List (Option RawPart)) (previous : Int) :
    Except ErrorCode (List CompletePart) :=
  match entries with
  | [] => Except.ok []
  | none :: _ => Except.error ErrorCode.invalidArgument
  | some rp :: rest =>
    match rp.partNumber, rp.etag with
    | some pn, some tg =>
      if pn ≤ 0 ∨ tg.isEmpty then Except.error ErrorCode.invalidArgument
      else if pn ≤ previous then Except.error ErrorCode.invalidArgument
      else
        match parseCompletePartsLoop rest pn with
        | Except.error u => Except.error u
        | Except.ok tail => Except.ok (⟨pn, tg⟩ :: tail)
    | _, _ => Except.error ErrorCode.invalidArgument

/-- Embeds `ParseCompleteParts` (route_registration.cpp, lines 118-154);
`parts = none` is a missing or non-array `"parts"` member. -/
def parseCompleteParts (parts : Option (List (Option RawPart))) :
    Except ErrorCode (List CompletePart) :=
  match parts with
  | none => Except.error ErrorCode.invalidArgument
  | some entries =>
    if entries.isEmpty then Except.error ErrorCode.invalidArgument
    else parseCompletePartsLoop entries 0

/-- The 8 KiB read loop slices a file into successive chunks. -/
def chunksOf (n : Nat) (l : List Nat) : List (List Nat) :=
  if h : l = [] ∨ n = 0 then []
  else l.take n :: chunksOf n (l.drop n)
termination_by l.length
decreasing_by
  push_neg at h
  simp only [List.length_drop]
  have h1 : l.length ≠ 0 := by simpa [List.length_eq_zero] using h.1
  omega

/-- Chunking loses no bytes. -/
lemma chunksOf_flatten (n : Nat) (hn : n ≠ 0) (l : List Nat) : (chunksOf n l).flatten = l := by
  induction l using chunksOf.induct n with
  | case1 l h =>
    rcases h with h | h
    · subst h
      rw [chunksOf]
      simp
    · exact absurd h hn
  | case2 l h ih =>
    rw [chunksOf, dif_neg h]
    simp [List.flatten, ih, List.take_append_drop]

/-- Accumulator of the reassembly loop: bytes written to the final temp
file, bytes fed to the SHA-256 engine, and the running `total_size`. -/
structure CompleteAccum where
  outBytes : List Nat
  hashedBytes : List Nat
  totalSize : Nat
deriving Repr, DecidableEq

/-- Per-part inner `while (in)` loop of the complete handler: write and
hash each 8192-byte chunk of the part file and count its bytes. -/
def appendPartChunks (acc : CompleteAccum) (content : List Nat) : CompleteAccum :=
  (chunksOf 8192 content).foldl
    (fun a chunk =>
      ⟨a.outBytes ++ chunk, a.hashedBytes ++ chunk, a.totalSize + chunk.length⟩) acc

/-- Lookup in the C++ `std::unordered_map<int, MultipartPart> part_map`
built by `part_map[part.part_number] = part` over the listed rows in
order; a later row with the same number overwrites an earlier one, hence
the reverse-order find. -/
def partMapFind (parts : List MultipartPart) (n : Int) : Option MultipartPart :=
  parts.reverse.find? (fun p => p.partNumber == n)

/-- Outcome of the complete handler: an error envelope or the success
JSON `{name, etag, size}` together with the bytes published at the
canonical object path by the final rename. -/
inductive CompleteOut where
  | err (status : Nat) (code : Str)
  | ok (name : Str) (etag : Str) (size : Nat) (published : List Nat)
deriving Repr, DecidableEq

/-- Reassembly loop over the validated parts list (route_registration.cpp,
lines 476-512).  `fs` maps a part's `temp_path` to its on-disk bytes
(`none` = the `std::ifstream` open fails). -/
def completeLoop (fs : Str → Option (List Nat)) (expected : List CompletePart)
    (listed : List MultipartPart) (acc : CompleteAccum) :
    Except (Nat × Str) CompleteAccum :=
  match expected with
  | [] => Except.ok acc
  | ex :: rest =>
    match partMapFind listed ex.partNumber with
    | none => Except.error (409, "MISSING_PART".toList)
    | some p =>
      if p.etag ≠ ex.etag then Except.error (409, "ETAG_MISMATCH".toList)
      else
        match fs p.tempPath with
        | none => Except.error (500, "IO_ERROR".toList)
        | some content => completeLoop fs rest listed (appendPartChunks acc content)

/-- Embeds the complete handler (route_registration.cpp, lines 418-543)
after upload/bucket validation succeeded.  `reqParts` is the parsed
request body, `listed` the `ListMultipartParts` rows, `openOk` the
outcome of opening the `complete-<uuid>` temp file.  The `DB_ERROR`
paths of `ListMultipartParts`/`UpsertObject` and the fire-and-forget
cleanup calls after the rename are not modelled (the claims quantify
over executions where the store succeeds). -/
def completeHandler (sha256hex : List Nat → Str) (upload : MultipartUpload)
    (reqParts : Option (List (Option RawPart))) (listed : List MultipartPart)
    (fs : Str → Option (List Nat)) (openOk : Bool) : CompleteOut :=
  if upload.state == "completed".toList || upload.state == "aborted".toList
      || upload.state == "expired".toList then
    CompleteOut.err 409 "INVALID_STATE".toList
  else
    match parseCompleteParts reqParts with
    | Except.error _ => CompleteOut.err 400 "INVALID_JSON".toList
    | Except.ok expected =>
      if listed.isEmpty then CompleteOut.err 409 "INVALID_STATE".toList
      else if !openOk then CompleteOut.err 500 "IO_ERROR".toList
      else
        match completeLoop fs expected listed ⟨[], [], 0⟩ with
        | Except.error ec => CompleteOut.err ec.1 ec.2
        | Except.ok acc =>
          CompleteOut.ok upload.objectName (sha256hex acc.hashedBytes) acc.totalSize
            acc.outBytes

/-- Folding the chunk-append step over any chunk list appends its
flattening to every accumulator component. -/
lemma foldl_append_chunks (js : List (List Nat)) (acc : CompleteAccum) :
    js.foldl (fun a chunk =>
        ⟨a.outBytes ++ chunk, a.hashedBytes ++ chunk, a.totalSize + chunk.length⟩) acc =
      ⟨acc.outBytes ++ js.flatten, acc.hashedBytes ++ js.flatten,
        acc.totalSize + js.flatten.length⟩ := by
  induction js generalizing acc with
  | nil => simp
  | cons c cs ih =>
    simp [ih, List.append_assoc, Nat.add_assoc]

/-- The per-part loop appends exactly the part's bytes to the output,
to the hashed stream, and to the byte count. -/
lemma appendPartChunks_eq (acc : CompleteAccum) (content : List Nat) :
    appendPartChunks acc content =
      ⟨acc.outBytes ++ content, acc.hashedBytes ++ content,
        acc.totalSize + content.length⟩ := by
  unfold appendPartChunks
  rw [foldl_append_chunks, chunksOf_flatten 8192 (by omega) content]

/-- `ParseCompleteParts` accepts a list whose part numbers ascend
strictly from above `prev ≥ 0` and whose etags are nonempty, returning
it unchanged. -/
lemma parseCompletePartsLoop_ok :
    ∀ (triples : List (Int × Str × List Nat)) (prev : Int), 0 ≤ prev →
      List.Chain (· < ·) prev (triples.map (fun t => t.1)) →
      (∀ t ∈ triples, t.2.1 ≠ []) →
      parseCompletePartsLoop (triples.map (fun t => some ⟨some t.1, some t.2.1⟩)) prev =
        Except.ok (triples.map (fun t => (⟨t.1, t.2.1⟩ : CompletePart))) := by
  intro triples
  induction triples with
  | nil =>
    intro prev _ _ _
    rfl
  | cons t ts ih =>
    intro prev hprev hchain hetags
    rw [List.map_cons] at hchain
    obtain ⟨hlt, hchain2⟩ := List.chain_cons.mp hchain
    have het : t.2.1 ≠ [] := hetags t (by simp)
    have hie : t.2.1.isEmpty = false := by simpa [List.isEmpty_iff] using het
    simp only [List.map_cons, parseCompletePartsLoop]
    rw [if_neg (by rw [hie]; simp only [Bool.false_eq_true, or_false]; omega),
      if_neg (by omega)]
    rw [ih t.1 (by omega) hchain2 (fun x hx => hetags x (by simp [hx]))]

/-- The reassembly loop concatenates, in request order, the stored
bytes of every requested part whose stored etag matches. -/
lemma completeLoop_ok (fs : Str → Option (List Nat)) (listed : List MultipartPart) :
    ∀ (triples : List (Int × Str × List Nat)) (acc : CompleteAccum),
      (∀ t ∈ triples, ∃ p : MultipartPart,
        partMapFind listed t.1 = some p ∧ p.etag = t.2.1 ∧ fs p.tempPath = some t.2.2) →
      completeLoop fs (triples.map (fun t => ⟨t.1, t.2.1⟩)) listed acc =
        Except.ok ⟨acc.outBytes ++ (triples.map (fun t => t.2.2)).flatten,
          acc.hashedBytes ++ (triples.map (fun t => t.2.2)).flatten,
          acc.totalSize + (triples.map (fun t => t.2.2)).flatten.length⟩ := by
  intro triples
  induction triples with
  | nil =>
    intro acc _
    simp [completeLoop]
  | cons t ts ih =>
    intro acc hload
    obtain ⟨p, hfind, hetag, hfs⟩ := hload t (by simp)
    simp only [List.map_cons, completeLoop, hfind, hfs]
    rw [if_neg (by simp [hetag])]
    rw [ih (appendPartChunks acc t.2.2) (fun x hx => hload x (by simp [hx]))]
    rw [appendPartChunks_eq]
    simp [List.append_assoc, Nat.add_assoc]

/-- C1: a successful multipart complete whose request lists part numbers
`0 < n_1 < … < n_k`, each with the stored etag of that part, publishes
exactly the concatenation of the stored part contents in that ascending
order; the response `size` is the total byte count and the response
`etag` is the hash function applied to the whole concatenation (a plain
SHA-256 of the concatenated bytes, not a tree hash of per-part
digests). -/
theorem C1_multipart_complete (sha256hex : List Nat → Str) (upload : MultipartUpload)
    (listed : List MultipartPart) (fs : Str → Option (List Nat))
    (triples : List (Int × Str × List Nat))
    (hstate1 : upload.state ≠ "completed".toList)
    (hstate2 : upload.state ≠ "aborted".toList)
    (hstate3 : upload.state ≠ "expired".toList)
    (hne : triples ≠ [])
    (hasc : List.Chain (· < ·) 0 (triples.map (fun t => t.1)))
    (hetags : ∀ t ∈ triples, t.2.1 ≠ [])
    (hload : ∀ t ∈ triples, ∃ p : MultipartPart,
      partMapFind listed t.1 = some p ∧ p.etag = t.2.1 ∧ fs p.tempPath = some t.2.2)
    (hlisted : listed ≠ []) :
    completeHandler sha256hex upload
        (some (triples.map (fun t => some ⟨some t.1, some t.2.1⟩))) listed fs true =
      CompleteOut.ok upload.objectName
        (sha256hex (triples.map (fun t => t.2.2)).flatten)
        (triples.map (fun t => t.2.2)).flatten.length
        (triples.map (fun t => t.2.2)).flatten := by
  have g1 : (upload.state == "completed".toList) = false := beq_eq_false_iff_ne.mpr hstate1
  have g2 : (upload.state == "aborted".toList) = false := beq_eq_false_iff_ne.mpr hstate2
  have g3 : (upload.state == "expired".toList) = false := beq_eq_false_iff_ne.mpr hstate3
  have hme : (triples.map (fun t => some (⟨some t.1, some t.2.1⟩ : RawPart))).isEmpty = false := by
    simp [List.isEmpty_iff, hne]
  have hle : listed.isEmpty = false := by simpa [List.isEmpty_iff] using hlisted
  simp only [completeHandler, g1, g2, g3, Bool.or_self, Bool.or_false,
    Bool.false_eq_true, if_false, parseCompleteParts, hme]
  rw [parseCompletePartsLoop_ok triples 0 (by omega) hasc hetags]
  simp only [hle, Bool.false_eq_true, if_false, Bool.not_true]
  rw [completeLoop_ok fs listed triples ⟨[], [], 0⟩ hload]
  simp

/-- C1 witness: two parts, numbers 1 and 3, concatenated in order. -/
theorem C1_multipart_complete_witness :
    completeHandler (fun l => natStr l.length)
        ⟨"U".toList, 1, "big.bin".toList, "uploading".toList, 0⟩
        (some [some ⟨some 1, some ['a']⟩, some ⟨some 3, some ['b']⟩])
        [⟨1, 2, ['a'], "p1".toList⟩, ⟨3, 3, ['b'], "p3".toList⟩]
        (fun path => if path = "p1".toList then some [1, 2]
          else if path = "p3".toList then some [3, 4, 5] else none) true =
      CompleteOut.ok "big.bin".toList (natStr 5) 5 [1, 2, 3, 4, 5] := by
  have h := C1_multipart_complete (fun l => natStr l.length)
    ⟨"U".toList, 1, "big.bin".toList, "uploading".toList, 0⟩
    [⟨1, 2, ['a'], "p1".toList⟩, ⟨3, 3, ['b'], "p3".toList⟩]
    (fun path => if path = "p1".toList then some [1, 2]
      else if path = "p3".toList then some [3, 4, 5] else none)
    [(1, ['a'], [1, 2]), (3, ['b'], [3, 4, 5])]
    (by decide) (by decide) (by decide) (by decide)
    (by
      show List.Chain (· < ·) 0 [1, 3]
      exact List.Chain.cons (by decide) (List.Chain.cons (by decide) List.Chain.nil))
    (by decide)
    (by
      intro t ht
      fin_cases ht
      · exact ⟨⟨1, 2, ['a'], "p1".toList⟩, by decide, by decide, rfl⟩
      · exact ⟨⟨3, 3, ['b'], "p3".toList⟩, by decide, by decide, rfl⟩)
    (by decide)
  simpa using h

/-- Digit-string value, helper for the `std::stoi` model. -/
def digitsToNat (s : Str) : Option Nat :=
  if s ≠ [] ∧ s.all (fun c => c.isDigit) then
    some (s.foldl (fun acc c => acc * 10 + (c.toNat - 48)) 0)
  else none

/-- Models `std::stoi` combined with the `consumed == value.size()`
check of `ParsePositiveInt`: the whole string must be an optionally
signed decimal number.  (Out-of-range throws are caught by the same
`catch` and also yield `none`; not modelled.) -/
def stoiAll (s : Str) : Option Int :=
  match s with
  | '-' :: rest => (digitsToNat rest).map (fun v => -(v : Int))
  | '+' :: rest => (digitsToNat rest).map (fun v => (v : Int))
  | _ => (digitsToNat s).map (fun v => (v : Int))

/-- Embeds `ParsePositiveInt` (route_registration.cpp, lines 47-61). -/
def parsePositiveInt (value : Str) : Option Int :=
  if value.isEmpty then none
  else
    match stoiAll value with
    | none => none
    | some v => if v ≤ 0 then none else some v

/-- Outcome of the part-upload handler. -/
inductive PartOut where
  | err (status : Nat) (code : Str)
  | ok (partNumber : Int) (etag : Str) (size : Nat)
deriving Repr, DecidableEq

/-- Embeds the part-upload handler (route_registration.cpp, lines
303-375) after `ValidateUploadForBucket` succeeded: part-number parse,
the terminal-state guard, then write/hash/upsert.  `openOk` is the part
file `std::ofstream` open, `upsertOk`/`stateOk` the two metadata calls. -/
def partUploadHandler (sha256hex : List Nat → Str) (partNumberText : Str)
    (upload : MultipartUpload) (body : List Nat)
    (openOk upsertOk stateOk : Bool) : PartOut :=
  match parsePositiveInt partNumberText with
  | none => PartOut.err 400 "INVALID_PART_NUMBER".toList
  | some n =>
    if upload.state == "completed".toList || upload.state == "aborted".toList
        || upload.state == "expired".toList then
      PartOut.err 409 "INVALID_STATE".toList
    else if !openOk then PartOut.err 500 "IO_ERROR".toList
    else if !upsertOk then PartOut.err 500 "DB_ERROR".toList
    else if !stateOk then PartOut.err 500 "DB_ERROR".toList
    else PartOut.ok n (sha256hex body) body.length

/-- Outcome of the abort handler (`DELETE .../multipart-uploads/{u}`). -/
inductive AbortOut where
  | err (status : Nat) (code : Str)
  | noContent
deriving Repr, DecidableEq

/-- Embeds the abort handler (route_registration.cpp, lines 545-573)
after `ValidateUploadForBucket` succeeded.  The only guard is
`upload.state == "completed"`; in every other state the handler runs the
fire-and-forget cleanup (state := aborted, delete part rows, delete
upload row, remove the temp directory) and answers 204 No Content. -/
def abortHandler (upload : MultipartUpload) : AbortOut :=
  if upload.state == "completed".toList then
    AbortOut.err 409 "INVALID_STATE".toList
  else AbortOut.noContent

/-- C2 counterexample: abort against an upload row in state `aborted`
(or `expired`) is answered 204 No Content, not 409 INVALID_STATE. -/
theorem C2_abort_terminal_counterexample :
    abortHandler ⟨"u1".toList, 1, "o".toList, "aborted".toList, 0⟩ =
        AbortOut.noContent ∧
    abortHandler ⟨"u1".toList, 1, "o".toList, "expired".toList, 0⟩ =
        AbortOut.noContent ∧
    AbortOut.noContent ≠ AbortOut.err 409 "INVALID_STATE".toList := by
  decide

/-- C2 (amended): part upload and complete against an upload in state
`completed`, `aborted` or `expired` are rejected with 409 INVALID_STATE;
abort is rejected with 409 INVALID_STATE only against `completed`, while
abort against `aborted` or `expired` proceeds and answers 204. -/
theorem C2_terminal_state_guards (sha256hex : List Nat → Str)
    (upload : MultipartUpload) (text : Str) (body : List Nat)
    (openOk upsertOk stateOk : Bool) (n : Int)
    (reqParts : Option (List (Option RawPart))) (listed : List MultipartPart)
    (fs : Str → Option (List Nat)) (copenOk : Bool)
    (hterm : upload.state = "completed".toList ∨ upload.state = "aborted".toList ∨
      upload.state = "expired".toList)
    (hpn : parsePositiveInt text = some n) :
    partUploadHandler sha256hex text upload body openOk upsertOk stateOk =
        PartOut.err 409 "INVALID_STATE".toList ∧
    completeHandler sha256hex upload reqParts listed fs copenOk =
        CompleteOut.err 409 "INVALID_STATE".toList ∧
    (upload.state = "completed".toList →
      abortHandler upload = AbortOut.err 409 "INVALID_STATE".toList) ∧
    (upload.state = "aborted".toList ∨ upload.state = "expired".toList →
      abortHandler upload = AbortOut.noContent) := by
  have hguard : (upload.state == "completed".toList
      || upload.state == "aborted".toList
      || upload.state == "expired".toList) = true := by
    rcases hterm with h | h | h <;> simp [h]
  refine ⟨?_, ?_, ?_, ?_⟩
  · simp only [partUploadHandler, hpn, hguard, if_true]
  · simp only [completeHandler, hguard, if_true]
  · intro h
    simp [abortHandler, h]
  · intro h
    rcases h with h | h <;>
      simp [abortHandler, h]

/-- C2 witness: a completed upload rejects part upload, complete and
abort; an aborted one accepts abort. -/
theorem C2_terminal_state_guards_witness :
    partUploadHandler (fun _ => []) ['1']
        ⟨"u2".toList, 1, "o".toList, "completed".toList, 0⟩ [7] true true true =
      PartOut.err 409 "INVALID_STATE".toList ∧
    completeHandler (fun _ => [])
        ⟨"u2".toList, 1, "o".toList, "completed".toList, 0⟩ none [] (fun _ => none) true =
      CompleteOut.err 409 "INVALID_STATE".toList ∧
    abortHandler ⟨"u2".toList, 1, "o".toList, "completed".toList, 0⟩ =
      AbortOut.err 409 "INVALID_STATE".toList ∧
    abortHandler ⟨"u2".toList, 1, "o".toList, "aborted".toList, 0⟩ =
      AbortOut.noContent := by
  have h := C2_terminal_state_guards (fun _ => [])
    ⟨"u2".toList, 1, "o".toList, "completed".toList, 0⟩ ['1'] [7] true true true 1
    none [] (fun _ => none) true (Or.inl rfl) rfl
  refine ⟨h.1, h.2.1, h.2.2.1 rfl, ?_⟩
  have h2 := C2_terminal_state_guards (fun _ => [])
    ⟨"u2".toList, 1, "o".toList, "aborted".toList, 0⟩ ['1'] [7] true true true 1
    none [] (fun _ => none) true (Or.inr (Or.inl rfl)) rfl
  exact h2.2.2.2 (Or.inl rfl)

/-! ## Storage write/delete (`src/storage/local_storage.cpp`) -/

/-- Result of the `WriteObject` model: the returned `Result` (size and
etag of the `StoredObject` on success), whether the `<temp>/<uuid>` file
is still present afterwards, and the bytes published at the canonical
path by the rename (if it happened). -/
structure WriteOutcome where
  result : Except ErrorCode (Nat × Str)
  tempRemains : Bool
  published : Option (List Nat)
deriving Repr

/-- Inner write loop of `LocalStorage::WriteObject` (POSIX branch,
local_storage.cpp lines 79-95): per-chunk `::write` with outcome script
`writeOk`.  On a failed write the code does `::close(fd)` and returns
`kIoError` without unlinking the temp file. -/
def writeObjectLoop (chunks : List (List Nat)) (writeOk : Nat → Bool) (i : Nat)
    (written hashed : List Nat) : Except ErrorCode (List Nat × List Nat) :=
  match chunks with
  | [] => Except.ok (written, hashed)
  | c :: rest =>
    if !writeOk i then Except.error ErrorCode.ioError
    else writeObjectLoop rest writeOk (i + 1) (written ++ c) (hashed ++ c)

/-- Embeds `LocalStorage::WriteObject` (local_storage.cpp, lines 37-106,
POSIX branch).  `chunks` are the successive 8 KiB reads of the input
stream, `openOk` the `::open(O_CREAT|O_WRONLY|O_TRUNC)` outcome and
`writeOk i` the outcome of the i-th `::write`.  `EnsureBucket` and
`create_directories` only create directories and are modelled as always
succeeding; `std::filesystem::rename` failure would throw out of the
function and is outside this model. -/
def writeObject (sha256hex : List Nat → Str) (bucket object : Str)
    (chunks : List (List Nat)) (openOk : Bool) (writeOk : Nat → Bool) : WriteOutcome :=
  if !(isSafeName bucket && isSafeName object) then
    ⟨Except.error ErrorCode.invalidArgument, false, none⟩
  else if !openOk then
    ⟨Except.error ErrorCode.ioError, false, none⟩
  else
    match writeObjectLoop chunks writeOk 0 [] [] with
    | Except.error u => ⟨Except.error u, true, none⟩
    | Except.ok (written, hashed) =>
      ⟨Except.ok (written.length, sha256hex hashed), false, some written⟩

/-- C5 evaluation at the failing input: a single-chunk write whose
`::write` syscall fails makes `WriteObject` return `kIoError` while the
temp file it created is left in place — the claimed unconditional temp
cleanup is absent from the code (only the session streaming path,
`Session::FailUpload`, removes its temp file). -/
theorem C5_writeObject_leaves_temp_on_failure :
    (writeObject (fun _ => []) ['b'] ['o'] [[0]] true (fun _ => false)).result =
        Except.error ErrorCode.ioError ∧
    (writeObject (fun _ => []) ['b'] ['o'] [[0]] true (fun _ => false)).tempRemains =
        true ∧
    (writeObject (fun _ => []) ['b'] ['o'] [[0]] true (fun _ => false)).published =
        none := by
  refine ⟨rfl, rfl, rfl⟩

/-! ## DELETE object handler (`src/http/route_registration.cpp`,
`src/storage/local_storage.cpp`) -/

/-- Embeds `LocalStorage::DeleteObject` (local_storage.cpp, lines
123-134): result together with the file-present flag afterwards. -/
def storageDeleteObject (bucket object : Str) (fileOnDisk : Bool) :
    Except ErrorCode Unit × Bool :=
  if !(isSafeName bucket && isSafeName object) then
    (Except.error ErrorCode.invalidArgument, fileOnDisk)
  else if !fileOnDisk then (Except.error ErrorCode.notFound, fileOnDisk)
  else (Except.ok (), false)

/-- Outcome of the DELETE object route. -/
inductive DeleteOut where
  | err (status : Nat) (code : Str)
  | okDeleted
deriving Repr, DecidableEq

/-- Embeds the `DELETE /v1/buckets/{b}/objects/{o}` handler
(route_registration.cpp, lines 575-587): any storage error becomes 404
OBJECT_NOT_FOUND; after a successful removal the metadata
`DeleteObject` is called and its result ignored.  The metadata delete
itself (sqlite_metadata_store.cpp, lines 212-226) removes the row only
when the bucket row resolves. -/
def deleteObjectHandler (bucket object : Str) (fileOnDisk metaRow metaBucketOk : Bool) :
    DeleteOut × Bool × Bool :=
  let st := storageDeleteObject bucket object fileOnDisk
  match st.1 with
  | Except.error _ => (DeleteOut.err 404 "OBJECT_NOT_FOUND".toList, st.2, metaRow)
  | Except.ok _ =>
    let metaAfter := if metaBucketOk then false else metaRow
    (DeleteOut.okDeleted, st.2, metaAfter)

/-- C10: the DELETE outcome is decided solely by the file's presence on
disk — absent file means 404 OBJECT_NOT_FOUND even when a metadata row
exists, and once the file is removed the handler answers
`{"deleted":true}` whatever the (ignored) metadata delete does. -/
theorem C10_delete_decided_by_file (bucket object : Str)
    (metaRow metaBucketOk : Bool)
    (hb : isSafeName bucket = true) (ho : isSafeName object = true) :
    (deleteObjectHandler bucket object false metaRow metaBucketOk =
        (DeleteOut.err 404 "OBJECT_NOT_FOUND".toList, false, metaRow)) ∧
    (deleteObjectHandler bucket object true metaRow metaBucketOk =
        (DeleteOut.okDeleted, false, if metaBucketOk then false else metaRow)) := by
  constructor
  · simp [deleteObjectHandler, storageDeleteObject, hb, ho]
  · simp [deleteObjectHandler, storageDeleteObject, hb, ho]

/-- C10 witness: with a live metadata row and an absent file the
handler answers 404; with the file present and the metadata delete
failing to resolve the bucket it still answers deleted. -/
theorem C10_delete_decided_by_file_witness :
    deleteObjectHandler ['b'] ['o'] false true true =
        (DeleteOut.err 404 "OBJECT_NOT_FOUND".toList, false, true) ∧
    deleteObjectHandler ['b'] ['o'] true true false =
        (DeleteOut.okDeleted, false, true) := by
  constructor
  · exact (C10_delete_decided_by_file ['b'] ['o'] true true (by decide) (by decide)).1
  · exact (C10_delete_decided_by_file ['b'] ['o'] true false (by decide) (by decide)).2

/-! ## JWT utilities and verifier (`src/auth/jwt_utils.cpp`,
`src/auth/jwt_verifier.cpp`) -/

/-- Loop body of `Split` (jwt_utils.cpp, lines 46-53): push the current
segment at a delimiter, extend it otherwise. -/
def splitStep (delim : Char) (acc : List Str × Str) (c : Char) : List Str × Str :=
  if c = delim then (acc.1 ++ [acc.2], []) else (acc.1, acc.2 ++ [c])

/-- Embeds `Split` (jwt_utils.cpp, lines 42-56): accumulate the current
segment, pushing it at every delimiter and once more at the end. -/
def splitChar (input : Str) (delim : Char) : List Str :=
  let p := input.foldl (splitStep delim) ([], [])
  p.1 ++ [p.2]

/-- Folding the split step over delimiter-free input extends the
current segment and touches nothing else. -/
lemma splitFold_no_delim (d : Char) :
    ∀ (input : Str), d ∉ input → ∀ (parts : List Str) (cur : Str),
      input.foldl (splitStep d) (parts, cur) = (parts, cur ++ input) := by
  intro input
  induction input with
  | nil =>
    intro _ parts cur
    simp
  | cons a l ih =>
    intro h parts cur
    have ha : a ≠ d := by
      intro hq
      exact h (by simp [hq])
    simp only [List.foldl_cons, splitStep, if_neg ha]
    rw [ih (fun hx => h (by simp [hx])) parts (cur ++ [a])]
    simp

/-- Crossing one delimiter closes the current segment. -/
lemma splitFold_delim_append (d : Char) (a rest : Str) (h : d ∉ a)
    (parts : List Str) (cur : Str) :
    (a ++ d :: rest).foldl (splitStep d) (parts, cur) =
      rest.foldl (splitStep d) (parts ++ [cur ++ a], []) := by
  rw [List.foldl_append, splitFold_no_delim d a h parts cur]
  simp [splitStep]

/-- A delimiter-free string splits to itself alone. -/
lemma splitChar_single (input : Str) (d : Char) (h : d ∉ input) :
    splitChar input d = [input] := by
  simp only [splitChar]
  rw [splitFold_no_delim d input h [] []]
  simp

/-- One delimiter splits into the two surrounding segments. -/
lemma splitChar_pair (a b : Str) (d : Char) (ha : d ∉ a) (hb : d ∉ b) :
    splitChar (a ++ d :: b) d = [a, b] := by
  simp only [splitChar]
  rw [splitFold_delim_append d a b ha [] [], splitFold_no_delim d b hb]
  simp

/-- Two delimiters split into the three surrounding segments. -/
lemma splitChar_triple (h p s : Str) (d : Char) (hh : d ∉ h) (hp : d ∉ p)
    (hs : d ∉ s) :
    splitChar (h ++ d :: (p ++ d :: s)) d = [h, p, s] := by
  simp only [splitChar]
  rw [splitFold_delim_append d h (p ++ d :: s) hh [] [],
    splitFold_delim_append d p s hp, splitFold_no_delim d s hs]
  simp

/-- JSON values as far as the verifier inspects them (Poco Dynamic::Var
contents).  `other` stands for any further shape (null, bool, object). -/
inductive JVal where
  | str (v : Str)
  | num (v : Int)
  | arr (vs : List JVal)
  | other
deriving Repr

/-- A parsed JSON object: ordered key/value pairs. -/
abbrev JObj := List (Str × JVal)

/-- Poco `Object::get`: first binding of the key, if any. -/
def jGet (o : JObj) (k : Str) : Option JVal :=
  (o.find? (fun p => p.1 == k)).map (fun p => p.2)

/-- Poco `Object::has`. -/
def jHas (o : JObj) (k : Str) : Bool :=
  (jGet o k).isSome

/-- Poco `getValue<std::string>`: `get` + `Var::convert`.  A missing key
or a non-string value throws (`Except.error`; Poco would stringify a
numeric value, a case no token in the claims exercises). -/
def jGetStr (o : JObj) (k : Str) : Except Unit Str :=
  match jGet o k with
  | some (JVal.str v) => Except.ok v
  | _ => Except.error ()

/-- Poco `getValue<long>` under the same conventions. -/
def jGetInt (o : JObj) (k : Str) : Except Unit Int :=
  match jGet o k with
  | some (JVal.num v) => Except.ok v
  | _ => Except.error ()

/-- Embeds `ParseAudience` (jwt_verifier.cpp, lines 29-45): a string is
a singleton, an array is read element-wise (`getElement<std::string>`
throwing on an element it cannot convert), anything else gives the
empty list. -/
def parseAudience (v : JVal) : Except Unit (List Str) :=
  match v with
  | JVal.str s => Except.ok [s]
  | JVal.arr vs =>
    match vs.mapM (fun x => match x with | JVal.str s => some s | _ => none) with
    | some l => Except.ok l
    | none => Except.error ()
  | _ => Except.ok []

/-- Embeds `ContainsAudience` (jwt_verifier.cpp, lines 19-27). -/
def containsAudience (aud : List Str) (expected : Str) : Bool :=
  aud.any (fun item => item == expected)

/-- Embeds `ParseScopes` (jwt_verifier.cpp, lines 47-73): `scope` is a
space-delimited string (empty fragments dropped), `scp` an array of
strings; the two are concatenated. -/
def parseScopes (payload : JObj) : Except Unit (List Str) := do
  let s1 ← if jHas payload "scope".toList then
      match jGetStr payload "scope".toList with
      | Except.ok v =>
        Except.ok ((splitChar v ' ').filter (fun part => !part.isEmpty))
      | Except.error u => Except.error u
    else Except.ok []
  let s2 ← if jHas payload "scp".toList then
      match jGet payload "scp".toList with
      | some (JVal.arr vs) =>
        match vs.mapM (fun x => match x with | JVal.str v => some v | _ => none) with
        | some l => Except.ok l
        | none => Except.error ()
      | _ => Except.ok []
    else Except.ok []
  Except.ok (s1 ++ s2)

/-- Claims produced on success (`auth::JwtClaims`). -/
structure JwtClaims where
  subject : Str
  issuer : Str
  audience : List Str
  scopes : List Str
deriving Repr, DecidableEq

/-- Observable outcome of `JwtVerifier::Verify`: success, a
`kUnauthorized` error with its message, or an exception the function
does not catch (its `try` block covers only the two JSON parses). -/
inductive VerifyOut where
  | ok (claims : JwtClaims)
  | unauthorized (msg : Str)
  | thrown
deriving Repr, DecidableEq

/-- Tail of `Verify` after the time checks: key resolution, signature
check, claim assembly (jwt_verifier.cpp, lines 183-200).  `getKey`
stands for `JwksCache::GetKey` (all its error paths are
`kUnauthorized`), `verifySig` for `VerifySignature` (both of its
failure modes are `kUnauthorized`; the two message variants are
collapsed into one). -/
def verifyFinish (getKey : Str → Except Str Unit) (verifySig : Str → Str → Bool)
    (header64 payload64 signature64 kid issuer : Str) (aud : List Str)
    (payload : JObj) : VerifyOut :=
  match getKey kid with
  | Except.error msg => VerifyOut.unauthorized msg
  | Except.ok _ =>
    if !verifySig (header64 ++ '.' :: payload64) signature64 then
      VerifyOut.unauthorized "signature verification failed".toList
    else
      match parseScopes payload with
      | Except.error _ => VerifyOut.thrown
      | Except.ok scopes =>
        let subject :=
          if jHas payload "sub".toList then
            match jGetStr payload "sub".toList with
            | Except.ok v => v
            | Except.error _ => []
          else []
        VerifyOut.ok ⟨subject, issuer, aud, scopes⟩

/-- Embeds `JwtVerifier::Verify` (jwt_verifier.cpp, lines 116-201).
`parsePart` composes base64url-decoding a segment with the Poco JSON
parse (both external); `now`/`skew` are the wall clock and configured
skew in seconds.  Note which accesses sit outside the `try`: `alg`,
`kid` and `iss` are fetched with `getValue` and a missing key there
throws out of `Verify` (`VerifyOut.thrown`) instead of returning
`kUnauthorized`. -/
def verifyJwt (enabled : Bool) (allowedAlg cfgIssuer cfgAudience : Str)
    (skew now : Int) (parsePart : Str → Except Unit JObj)
    (getKey : Str → Except Str Unit) (verifySig : Str → Str → Bool)
    (token : Str) : VerifyOut :=
  if !enabled then VerifyOut.ok ⟨[], [], [], []⟩
  else
    match splitChar token '.' with
    | [header64, payload64, signature64] =>
      match parsePart header64, parsePart payload64 with
      | Except.ok header, Except.ok payload =>
        match jGetStr header "alg".toList with
        | Except.error _ => VerifyOut.thrown
        | Except.ok alg =>
          if alg != allowedAlg then VerifyOut.unauthorized "unsupported alg".toList
          else
            match jGetStr header "kid".toList with
            | Except.error _ => VerifyOut.thrown
            | Except.ok kid =>
              if kid.isEmpty then VerifyOut.unauthorized "missing kid".toList
              else
                match jGetStr payload "iss".toList with
                | Except.error _ => VerifyOut.thrown
                | Except.ok issuer =>
                  if !cfgIssuer.isEmpty && (issuer != cfgIssuer) then
                    VerifyOut.unauthorized "issuer mismatch".toList
                  else
                    match (if jHas payload "aud".toList then
                        match jGet payload "aud".toList with
                        | some v => parseAudience v
                        | none => Except.ok []
                      else Except.ok []) with
                    | Except.error _ => VerifyOut.thrown
                    | Except.ok aud =>
                      if !cfgAudience.isEmpty &&
                          (aud.isEmpty || !containsAudience aud cfgAudience) then
                        VerifyOut.unauthorized "audience mismatch".toList
                      else
                        if !(jHas payload "exp".toList) then
                          VerifyOut.unauthorized "missing exp".toList
                        else
                          match jGetInt payload "exp".toList with
                          | Except.error _ => VerifyOut.thrown
                          | Except.ok exp =>
                            if now > exp + skew then
                              VerifyOut.unauthorized "token expired".toList
                            else
                              if jHas payload "nbf".toList then
                                match jGetInt payload "nbf".toList with
                                | Except.error _ => VerifyOut.thrown
                                | Except.ok nbf =>
                                  if now + skew < nbf then
                                    VerifyOut.unauthorized "token not yet valid".toList
                                  else
                                    verifyFinish getKey verifySig header64 payload64
                                      signature64 kid issuer aud payload
                              else
                                verifyFinish getKey verifySig header64 payload64
                                  signature64 kid issuer aud payload
      | _, _ => VerifyOut.unauthorized "invalid json".toList
    | _ => VerifyOut.unauthorized "invalid token format".toList

/-- Session-level authorization outcome: request admitted, a 401
UNAUTHORIZED envelope, or an exception that escapes the session. -/
inductive AuthzOut where
  | pass
  | resp401 (msg : Str)
  | exc
deriving Repr, DecidableEq

/-- The session maps any `Verify` error to a 401 UNAUTHORIZED envelope
(`Session::EnsureAuthorized`, http_server.cpp, lines 332-351); an
exception out of `Verify` is not caught there either, so it never
becomes a response. -/
def ensureAuthorized (out : VerifyOut) : AuthzOut :=
  match out with
  | VerifyOut.ok _ => AuthzOut.pass
  | VerifyOut.unauthorized m => AuthzOut.resp401 m
  | VerifyOut.thrown => AuthzOut.exc

/-- C6 (amended): the JWT rejection matrix.  With verification enabled,
each of the following yields `kUnauthorized` (hence a 401 envelope):
not exactly three dot-separated segments, wrong `alg`, empty `kid`,
issuer mismatch (when configured), audience not containing the
configured audience, missing `exp`, expired `exp`, premature `nbf`,
`kid` not resolving in the JWKS cache, and a failing RS256 signature
check over `header_b64 ++ "." ++ payload_b64`.  A header whose JSON has
no `kid` member at all instead makes `Verify` throw an uncaught Poco
exception (no 401 envelope is produced). -/
theorem C6_jwt_rejection_matrix
    (allowedAlg cfgIssuer cfgAudience : Str) (skew now exp nbf : Int) (em : Str)
    (parsePart : Str → Except Unit JObj) (getKey : Str → Except Str Unit)
    (verifySig : Str → Str → Bool)
    (h64 p64 s64 h64nk p64ne : Str)
    (H Hnk P Pne : JObj) (alg kid iss aud : Str)
    (hh64 : '.' ∉ h64) (hp64 : '.' ∉ p64) (hs64 : '.' ∉ s64)
    (hh64nk : '.' ∉ h64nk) (hp64ne : '.' ∉ p64ne)
    (hH : parsePart h64 = Except.ok H)
    (halg : jGetStr H "alg".toList = Except.ok alg)
    (hkid : jGetStr H "kid".toList = Except.ok kid)
    (hHnk : parsePart h64nk = Except.ok Hnk)
    (halgnk : jGetStr Hnk "alg".toList = Except.ok allowedAlg)
    (hkidnk : jGetStr Hnk "kid".toList = Except.error ())
    (hP : parsePart p64 = Except.ok P)
    (hiss : jGetStr P "iss".toList = Except.ok iss)
    (haud : jGet P "aud".toList = some (JVal.str aud))
    (hexp : jGet P "exp".toList = some (JVal.num exp))
    (hnbf : jGet P "nbf".toList = some (JVal.num nbf))
    (hPne : parsePart p64ne = Except.ok Pne)
    (hissne : jGetStr Pne "iss".toList = Except.ok iss)
    (haudne : jGet Pne "aud".toList = some (JVal.str aud))
    (hexpne : jGet Pne "exp".toList = none) :
    (∀ t : Str, (splitChar t '.').length ≠ 3 →
      verifyJwt true allowedAlg cfgIssuer cfgAudience skew now parsePart getKey
          verifySig t = VerifyOut.unauthorized "invalid token format".toList) ∧
    (alg ≠ allowedAlg →
      verifyJwt true allowedAlg cfgIssuer cfgAudience skew now parsePart getKey
          verifySig (h64 ++ '.' :: (p64 ++ '.' :: s64)) =
        VerifyOut.unauthorized "unsupported alg".toList) ∧
    (verifyJwt true allowedAlg cfgIssuer cfgAudience skew now parsePart getKey
        verifySig (h64nk ++ '.' :: (p64 ++ '.' :: s64)) = VerifyOut.thrown) ∧
    (alg = allowedAlg → kid = [] →
      verifyJwt true allowedAlg cfgIssuer cfgAudience skew now parsePart getKey
          verifySig (h64 ++ '.' :: (p64 ++ '.' :: s64)) =
        VerifyOut.unauthorized "missing kid".toList) ∧
    (alg = allowedAlg → kid ≠ [] → cfgIssuer ≠ [] → iss ≠ cfgIssuer →
      verifyJwt true allowedAlg cfgIssuer cfgAudience skew now parsePart getKey
          verifySig (h64 ++ '.' :: (p64 ++ '.' :: s64)) =
        VerifyOut.unauthorized "issuer mismatch".toList) ∧
    (alg = allowedAlg → kid ≠ [] → (cfgIssuer = [] ∨ iss = cfgIssuer) →
      cfgAudience ≠ [] → aud ≠ cfgAudience →
      verifyJwt true allowedAlg cfgIssuer cfgAudience skew now parsePart getKey
          verifySig (h64 ++ '.' :: (p64 ++ '.' :: s64)) =
        VerifyOut.unauthorized "audience mismatch".toList) ∧
    (alg = allowedAlg → kid ≠ [] → (cfgIssuer = [] ∨ iss = cfgIssuer) →
      (cfgAudience = [] ∨ aud = cfgAudience) →
      verifyJwt true allowedAlg cfgIssuer cfgAudience skew now parsePart getKey
          verifySig (h64 ++ '.' :: (p64ne ++ '.' :: s64)) =
        VerifyOut.unauthorized "missing exp".toList) ∧
    (alg = allowedAlg → kid ≠ [] → (cfgIssuer = [] ∨ iss = cfgIssuer) →
      (cfgAudience = [] ∨ aud = cfgAudience) → now > exp + skew →
      verifyJwt true allowedAlg cfgIssuer cfgAudience skew now parsePart getKey
          verifySig (h64 ++ '.' :: (p64 ++ '.' :: s64)) =
        VerifyOut.unauthorized "token expired".toList) ∧
    (alg = allowedAlg → kid ≠ [] → (cfgIssuer = [] ∨ iss = cfgIssuer) →
      (cfgAudience = [] ∨ aud = cfgAudience) → ¬(now > exp + skew) →
      now + skew < nbf →
      verifyJwt true allowedAlg cfgIssuer cfgAudience skew now parsePart getKey
          verifySig (h64 ++ '.' :: (p64 ++ '.' :: s64)) =
        VerifyOut.unauthorized "token not yet valid".toList) ∧
    (alg = allowedAlg → kid ≠ [] → (cfgIssuer = [] ∨ iss = cfgIssuer) →
      (cfgAudience = [] ∨ aud = cfgAudience) → ¬(now > exp + skew) →
      ¬(now + skew < nbf) → getKey kid = Except.error em →
      verifyJwt true allowedAlg cfgIssuer cfgAudience skew now parsePart getKey
          verifySig (h64 ++ '.' :: (p64 ++ '.' :: s64)) =
        VerifyOut.unauthorized em) ∧
    (alg = allowedAlg → kid ≠ [] → (cfgIssuer = [] ∨ iss = cfgIssuer) →
      (cfgAudience = [] ∨ aud = cfgAudience) → ¬(now > exp + skew) →
      ¬(now + skew < nbf) → getKey kid = Except.ok () →
      verifySig (h64 ++ '.' :: p64) s64 = false →
      verifyJwt true allowedAlg cfgIssuer cfgAudience skew now parsePart getKey
          verifySig (h64 ++ '.' :: (p64 ++ '.' :: s64)) =
        VerifyOut.unauthorized "signature verification failed".toList) := by
  have hsplit := splitChar_triple h64 p64 s64 '.' hh64 hp64 hs64
  have hsplitnk := splitChar_triple h64nk p64 s64 '.' hh64nk hp64 hs64
  have hsplitne := splitChar_triple h64 p64ne s64 '.' hh64 hp64ne hs64
  refine ⟨?_, ?_, ?_, ?_, ?_, ?_, ?_, ?_, ?_, ?_, ?_⟩
  · intro t hlen
    simp only [verifyJwt, Bool.not_true, Bool.false_eq_true, if_false]
    rcases hsp : splitChar t '.' with - | ⟨a, rest1⟩
    · rfl
    · rcases rest1 with - | ⟨b, rest2⟩
      · rfl
      · rcases rest2 with - | ⟨c, rest3⟩
        · rfl
        · rcases rest3 with - | ⟨d, tl⟩
          · exfalso
            rw [hsp] at hlen
            simp at hlen
          · rfl
  · intro hne
    have hb : (alg != allowedAlg) = true := by simpa [bne_iff_ne] using hne
    simp only [verifyJwt, Bool.not_true, Bool.false_eq_true, if_false, hsplit,
      hH, hP, halg, hb, if_true]
  · simp only [verifyJwt, Bool.not_true, Bool.false_eq_true, if_false, hsplitnk,
      hHnk, hP, halgnk, bne_self_eq_false, Bool.false_eq_true, if_false, hkidnk]
  · intro heq hnil
    have hie : kid.isEmpty = true := by simp [hnil]
    simp only [verifyJwt, Bool.not_true, Bool.false_eq_true, if_false, hsplit,
      hH, hP, halg, heq, bne_self_eq_false, hkid, hie, if_true]
  · intro heq hnil hico hine
    have hie : kid.isEmpty = false := by simpa [List.isEmpty_iff] using hnil
    have hic : (!cfgIssuer.isEmpty && (iss != cfgIssuer)) = true := by
      simp [List.isEmpty_iff, hico, bne_iff_ne, hine]
    simp only [verifyJwt, Bool.not_true, Bool.false_eq_true, if_false, hsplit,
      hH, hP, halg, heq, bne_self_eq_false, hkid, hie, if_false, hiss, hic, if_true]
  · intro heq hnil hiok haco hane
    have hie : kid.isEmpty = false := by simpa [List.isEmpty_iff] using hnil
    have hic : (!cfgIssuer.isEmpty && (iss != cfgIssuer)) = false := by
      rcases hiok with h | h <;> simp [h]
    have haudm : jHas P "aud".toList = true := by simp only [jHas, haud, Option.isSome_some]
    have hac : (!cfgAudience.isEmpty &&
        (([aud] : List Str).isEmpty || !containsAudience [aud] cfgAudience)) = true := by
      simp [List.isEmpty_iff, haco, containsAudience, bne_iff_ne, hane, beq_eq_false_iff_ne]
    simp only [verifyJwt, Bool.not_true, Bool.false_eq_true, if_false, hsplit,
      hH, hP, halg, heq, bne_self_eq_false, hkid, hie, hiss, hic, if_false,
      haudm, if_true, haud, parseAudience, hac]
  · intro heq hnil hiok haok
    have hie : kid.isEmpty = false := by simpa [List.isEmpty_iff] using hnil
    have hic : (!cfgIssuer.isEmpty && (iss != cfgIssuer)) = false := by
      rcases hiok with h | h <;> simp [h]
    have haudm : jHas Pne "aud".toList = true := by simp only [jHas, haudne, Option.isSome_some]
    have hac : (!cfgAudience.isEmpty &&
        (([aud] : List Str).isEmpty || !containsAudience [aud] cfgAudience)) = false := by
      rcases haok with h | h <;> simp [h, containsAudience]
    have hexpm : jHas Pne "exp".toList = false := by simp only [jHas, hexpne, Option.isSome_none]
    simp only [verifyJwt, Bool.not_true, Bool.false_eq_true, if_false, hsplitne,
      hH, hPne, halg, heq, bne_self_eq_false, hkid, hie, hissne, hic,
      haudm, if_true, haudne, parseAudience, hac, hexpm, if_false, Bool.not_false]
  · intro heq hnil hiok haok hexpired
    have hie : kid.isEmpty = false := by simpa [List.isEmpty_iff] using hnil
    have hic : (!cfgIssuer.isEmpty && (iss != cfgIssuer)) = false := by
      rcases hiok with h | h <;> simp [h]
    have haudm : jHas P "aud".toList = true := by simp only [jHas, haud, Option.isSome_some]
    have hac : (!cfgAudience.isEmpty &&
        (([aud] : List Str).isEmpty || !containsAudience [aud] cfgAudience)) = false := by
      rcases haok with h | h <;> simp [h, containsAudience]
    have hexpm : jHas P "exp".toList = true := by simp only [jHas, hexp, Option.isSome_some]
    have hgexp : jGetInt P "exp".toList = Except.ok exp := by simp only [jGetInt, hexp]
    simp only [verifyJwt, Bool.not_true, Bool.false_eq_true, if_false, hsplit,
      hH, hP, halg, heq, bne_self_eq_false, hkid, hie, hiss, hic,
      haudm, if_true, haud, parseAudience, hac, hexpm, Bool.not_true, hgexp,
      if_pos hexpired]
  · intro heq hnil hiok haok hnexp hpre
    have hie : kid.isEmpty = false := by simpa [List.isEmpty_iff] using hnil
    have hic : (!cfgIssuer.isEmpty && (iss != cfgIssuer)) = false := by
      rcases hiok with h | h <;> simp [h]
    have haudm : jHas P "aud".toList = true := by simp only [jHas, haud, Option.isSome_some]
    have hac : (!cfgAudience.isEmpty &&
        (([aud] : List Str).isEmpty || !containsAudience [aud] cfgAudience)) = false := by
      rcases haok with h | h <;> simp [h, containsAudience]
    have hexpm : jHas P "exp".toList = true := by simp only [jHas, hexp, Option.isSome_some]
    have hgexp : jGetInt P "exp".toList = Except.ok exp := by simp only [jGetInt, hexp]
    have hnbfm : jHas P "nbf".toList = true := by simp only [jHas, hnbf, Option.isSome_some]
    have hgnbf : jGetInt P "nbf".toList = Except.ok nbf := by simp only [jGetInt, hnbf]
    simp only [verifyJwt, Bool.not_true, Bool.false_eq_true, if_false, hsplit,
      hH, hP, halg, heq, bne_self_eq_false, hkid, hie, hiss, hic,
      haudm, if_true, haud, parseAudience, hac, hexpm, hgexp,
      if_neg hnexp, hnbfm, hgnbf, if_pos hpre]
  · intro heq hnil hiok haok hnexp hnpre hgk
    have hie : kid.isEmpty = false := by simpa [List.isEmpty_iff] using hnil
    have hic : (!cfgIssuer.isEmpty && (iss != cfgIssuer)) = false := by
      rcases hiok with h | h <;> simp [h]
    have haudm : jHas P "aud".toList = true := by simp only [jHas, haud, Option.isSome_some]
    have hac : (!cfgAudience.isEmpty &&
        (([aud] : List Str).isEmpty || !containsAudience [aud] cfgAudience)) = false := by
      rcases haok with h | h <;> simp [h, containsAudience]
    have hexpm : jHas P "exp".toList = true := by simp only [jHas, hexp, Option.isSome_some]
    have hgexp : jGetInt P "exp".toList = Except.ok exp := by simp only [jGetInt, hexp]
    have hnbfm : jHas P "nbf".toList = true := by simp only [jHas, hnbf, Option.isSome_some]
    have hgnbf : jGetInt P "nbf".toList = Except.ok nbf := by simp only [jGetInt, hnbf]
    simp only [verifyJwt, Bool.not_true, Bool.false_eq_true, if_false, hsplit,
      hH, hP, halg, heq, bne_self_eq_false, hkid, hie, hiss, hic,
      haudm, if_true, haud, parseAudience, hac, hexpm, hgexp,
      if_neg hnexp, hnbfm, hgnbf, if_neg hnpre, verifyFinish, hgk]
  · intro heq hnil hiok haok hnexp hnpre hgk hsig
    have hie : kid.isEmpty = false := by simpa [List.isEmpty_iff] using hnil
    have hic : (!cfgIssuer.isEmpty && (iss != cfgIssuer)) = false := by
      rcases hiok with h | h <;> simp [h]
    have haudm : jHas P "aud".toList = true := by simp only [jHas, haud, Option.isSome_some]
    have hac : (!cfgAudience.isEmpty &&
        (([aud] : List Str).isEmpty || !containsAudience [aud] cfgAudience)) = false := by
      rcases haok with h | h <;> simp [h, containsAudience]
    have hexpm : jHas P "exp".toList = true := by simp only [jHas, hexp, Option.isSome_some]
    have hgexp : jGetInt P "exp".toList = Except.ok exp := by simp only [jGetInt, hexp]
    have hnbfm : jHas P "nbf".toList = true := by simp only [jHas, hnbf, Option.isSome_some]
    have hgnbf : jGetInt P "nbf".toList = Except.ok nbf := by simp only [jGetInt, hnbf]
    simp only [verifyJwt, Bool.not_true, Bool.false_eq_true, if_false, hsplit,
      hH, hP, halg, heq, bne_self_eq_false, hkid, hie, hiss, hic,
      haudm, if_true, haud, parseAudience, hac, hexpm, hgexp,
      if_neg hnexp, hnbfm, hgnbf, if_neg hnpre, verifyFinish, hgk, hsig,
      Bool.not_false]

/-- Concrete header object with `alg` and `kid`. -/
def c6H : JObj :=
  [("alg".toList, JVal.str "RS256".toList), ("kid".toList, JVal.str "k1".toList)]

/-- Concrete header object without a `kid` member. -/
def c6Hnk : JObj := [("alg".toList, JVal.str "RS256".toList)]

/-- Concrete payload with matching issuer/audience, `exp` 100, `nbf` 0. -/
def c6P : JObj :=
  [("iss".toList, JVal.str "I".toList), ("aud".toList, JVal.str "A".toList),
   ("exp".toList, JVal.num 100), ("nbf".toList, JVal.num 0)]

/-- Concrete payload lacking `exp`. -/
def c6Pne : JObj :=
  [("iss".toList, JVal.str "I".toList), ("aud".toList, JVal.str "A".toList)]

/-- Concrete decode-and-parse oracle for the four segments used in the
JWT evaluations. -/
def c6ParseOracle : Str → Except Unit JObj := fun x =>
  if x = "H".toList then Except.ok c6H
  else if x = "Hn".toList then Except.ok c6Hnk
  else if x = "P".toList then Except.ok c6P
  else if x = "Pn".toList then Except.ok c6Pne
  else Except.error ()

/-- Concrete JWKS lookup: only `k1` resolves. -/
def c6GetKey : Str → Except Str Unit := fun k =>
  if k = "k1".toList then Except.ok ()
  else Except.error "kid not found in jwks".toList

/-- Concrete signature oracle: every signature fails. -/
def c6VerifySig : Str → Str → Bool := fun _ _ => false

/-- C6 counterexample: a three-segment token whose header JSON carries
`alg` but no `kid` member makes `Verify` throw (the `getValue("kid")`
call sits outside the try block), so the result is an uncaught
exception, not a `kUnauthorized`/401 outcome as the claim states. -/
theorem C6_missing_kid_counterexample :
    verifyJwt true "RS256".toList "I".toList "A".toList 30 1000 c6ParseOracle
        c6GetKey c6VerifySig
        ("Hn".toList ++ '.' :: ("P".toList ++ '.' :: "S".toList)) =
      VerifyOut.thrown ∧
    (match verifyJwt true "RS256".toList "I".toList "A".toList 30 1000 c6ParseOracle
        c6GetKey c6VerifySig
        ("Hn".toList ++ '.' :: ("P".toList ++ '.' :: "S".toList)) with
      | VerifyOut.unauthorized _ => true
      | _ => false) = false ∧
    ensureAuthorized (VerifyOut.thrown) = AuthzOut.exc := by
  refine ⟨by decide, by decide, rfl⟩

/-- C6 witness: the rejection matrix applied to concrete tokens. -/
theorem C6_jwt_rejection_matrix_witness :
    verifyJwt true "RS256".toList "I".toList "A".toList 30 1000 c6ParseOracle
        c6GetKey c6VerifySig "x".toList =
      VerifyOut.unauthorized "invalid token format".toList ∧
    verifyJwt true "RS256".toList "I".toList "A".toList 30 1000 c6ParseOracle
        c6GetKey c6VerifySig
        ("Hn".toList ++ '.' :: ("P".toList ++ '.' :: "S".toList)) =
      VerifyOut.thrown ∧
    verifyJwt true "RS256".toList "I".toList "A".toList 30 1000 c6ParseOracle
        c6GetKey c6VerifySig
        ("H".toList ++ '.' :: ("P".toList ++ '.' :: "S".toList)) =
      VerifyOut.unauthorized "token expired".toList ∧
    verifyJwt true "RS256".toList "I".toList "A".toList 30 1000 c6ParseOracle
        c6GetKey c6VerifySig
        ("H".toList ++ '.' :: ("Pn".toList ++ '.' :: "S".toList)) =
      VerifyOut.unauthorized "missing exp".toList := by
  have h := C6_jwt_rejection_matrix "RS256".toList "I".toList "A".toList 30 1000
    100 0 "kid not found in jwks".toList c6ParseOracle c6GetKey c6VerifySig
    "H".toList "P".toList "S".toList "Hn".toList "Pn".toList
    c6H c6Hnk c6P c6Pne "RS256".toList "k1".toList "I".toList "A".toList
    (by decide) (by decide) (by decide) (by decide) (by decide)
    rfl rfl rfl rfl rfl rfl rfl rfl rfl rfl rfl rfl rfl rfl rfl
  refine ⟨h.1 "x".toList (by decide), h.2.2.1, ?_, ?_⟩
  · exact h.2.2.2.2.2.2.2.1 rfl (by decide) (Or.inr rfl) (Or.inr rfl) (by decide)
  · exact h.2.2.2.2.2.2.1 rfl (by decide) (Or.inr rfl) (Or.inr rfl)

/-! ## JWKS cache (`src/auth/jwks_cache.cpp`) -/

/-- Cache error: code and message (all cache paths use `kUnauthorized`). -/
abbrev JwksErr := ErrorCode × Str

/-- Mutable cache state: the `kid → RSA key` map (keys as opaque
handles) and `expires_at`. -/
structure JwksState where
  keys : List (Str × Nat)
  expiresAt : Int
deriving Repr, DecidableEq

/-- Map lookup (`keys_.find(kid)`). -/
def keysFind (keys : List (Str × Nat)) (kid : Str) : Option Nat :=
  (keys.find? (fun p => p.1 == kid)).map (fun p => p.2)

/-- Embeds `Refresh` plus the guts of `LoadFromBody` (jwks_cache.cpp,
lines 105-156).  `fetched` is the combined outcome of `FetchJwksBody`,
the JSON parse and the RSA/kid filtering: an error, or the candidate key
map.  An empty candidate map is a failure that leaves the previous map
and `expires_at` untouched; success replaces the map and then sets
`expires_at := now + ttl`. -/
def jwksRefresh (st : JwksState) (now ttl : Int)
    (fetched : Except JwksErr (List (Str × Nat))) :
    Except JwksErr Unit × JwksState :=
  match fetched with
  | Except.error e => (Except.error e, st)
  | Except.ok ks =>
    if ks.isEmpty then
      (Except.error ⟨ErrorCode.unauthorized, "jwks contained no rsa keys".toList⟩, st)
    else (Except.ok (), ⟨ks, now + ttl⟩)

/-- Embeds `GetKey` (jwks_cache.cpp, lines 78-103), which runs under the
cache mutex.  `fetch1`/`fetch2` script the outcomes of the successive
`Refresh` calls (at most two happen).  Returns the call result, the
final cache state, and how many refreshes were performed. -/
def jwksGetKey (kid : Str) (now ttl : Int) (st : JwksState)
    (fetch1 fetch2 : Except JwksErr (List (Str × Nat))) :
    Except JwksErr Nat × JwksState × Nat :=
  let s1 : Except JwksErr Unit × JwksState × Nat :=
    if st.keys.isEmpty || now ≥ st.expiresAt then
      let r := jwksRefresh st now ttl fetch1
      (r.1, r.2, 1)
    else (Except.ok (), st, 0)
  match s1.1 with
  | Except.error e => (Except.error e, s1.2.1, s1.2.2)
  | Except.ok _ =>
    match keysFind s1.2.1.keys kid with
    | some k => (Except.ok k, s1.2.1, s1.2.2)
    | none =>
      let r2 := jwksRefresh s1.2.1 now ttl (if s1.2.2 = 0 then fetch1 else fetch2)
      match r2.1 with
      | Except.error e => (Except.error e, r2.2, s1.2.2 + 1)
      | Except.ok _ =>
        match keysFind r2.2.keys kid with
        | some k => (Except.ok k, r2.2, s1.2.2 + 1)
        | none =>
          (Except.error ⟨ErrorCode.unauthorized, "kid not found in jwks".toList⟩,
            r2.2, s1.2.2 + 1)

/-- C7: `get_key` behaviour.  A refresh runs first exactly when the map
is empty or the TTL elapsed; a hit after that phase returns the key with
no further refresh; a miss triggers exactly one additional refresh, and
a miss after it fails UNAUTHORIZED "kid not found in jwks";
`expires_at` becomes `now + ttl` precisely on refresh success, and a
refresh yielding an empty key set fails leaving map and expiry as they
were. -/
theorem C7_jwks_get_key (kid : Str) (now ttl : Int) (st : JwksState)
    (fetch1 fetch2 : Except JwksErr (List (Str × Nat)))
    (hfresh : ¬(st.keys = [] ∨ now ≥ st.expiresAt)) :
    (∀ k, keysFind st.keys kid = some k →
      jwksGetKey kid now ttl st fetch1 fetch2 = (Except.ok k, st, 0)) ∧
    (∀ st2 f1 f2, (st2.keys = [] ∨ now ≥ st2.expiresAt) → ∀ e, f1 = Except.error e →
      jwksGetKey kid now ttl st2 f1 f2 = (Except.error e, st2, 1)) ∧
    (∀ st2 f2, (st2.keys = [] ∨ now ≥ st2.expiresAt) → ∀ ks k,
      ks ≠ [] → keysFind ks kid = some k →
      jwksGetKey kid now ttl st2 (Except.ok ks) f2 = (Except.ok k, ⟨ks, now + ttl⟩, 1)) ∧
    (∀ st2, (st2.keys = [] ∨ now ≥ st2.expiresAt) → ∀ ks ks2,
      ks ≠ [] → keysFind ks kid = none → ks2 ≠ [] → keysFind ks2 kid = none →
      jwksGetKey kid now ttl st2 (Except.ok ks) (Except.ok ks2) =
        (Except.error ⟨ErrorCode.unauthorized, "kid not found in jwks".toList⟩,
          ⟨ks2, now + ttl⟩, 2)) ∧
    (∀ ks k, keysFind st.keys kid = none → ks ≠ [] → keysFind ks kid = some k →
      jwksGetKey kid now ttl st (Except.ok ks) fetch2 =
        (Except.ok k, ⟨ks, now + ttl⟩, 1)) ∧
    (∀ ks, keysFind st.keys kid = none → ks ≠ [] → keysFind ks kid = none →
      jwksGetKey kid now ttl st (Except.ok ks) fetch2 =
        (Except.error ⟨ErrorCode.unauthorized, "kid not found in jwks".toList⟩,
          ⟨ks, now + ttl⟩, 1)) ∧
    (keysFind st.keys kid = none →
      jwksGetKey kid now ttl st (Except.ok []) fetch2 =
        (Except.error ⟨ErrorCode.unauthorized, "jwks contained no rsa keys".toList⟩,
          st, 1)) := by
  have hcond : (st.keys.isEmpty || decide (now ≥ st.expiresAt)) = false := by
    push_neg at hfresh
    simp [List.isEmpty_iff, hfresh.1, hfresh.2]
  refine ⟨?_, ?_, ?_, ?_, ?_, ?_, ?_⟩
  · intro k hk
    simp only [jwksGetKey, hcond, Bool.false_eq_true, if_false, hk]
  · intro st2 f1 f2 href e hf1
    have hc2 : (st2.keys.isEmpty || decide (now ≥ st2.expiresAt)) = true := by
      rcases href with h | h <;> simp [List.isEmpty_iff, h]
    subst hf1
    simp only [jwksGetKey, hc2, if_true, jwksRefresh]
  · intro st2 f2 href ks k hne hk
    have hc2 : (st2.keys.isEmpty || decide (now ≥ st2.expiresAt)) = true := by
      rcases href with h | h <;> simp [List.isEmpty_iff, h]
    have hie : ks.isEmpty = false := by simpa [List.isEmpty_iff] using hne
    simp only [jwksGetKey, hc2, if_true, jwksRefresh, hie, Bool.false_eq_true,
      if_false, hk]
  · intro st2 href ks ks2 hne hk hne2 hk2
    have hc2 : (st2.keys.isEmpty || decide (now ≥ st2.expiresAt)) = true := by
      rcases href with h | h <;> simp [List.isEmpty_iff, h]
    have hie : ks.isEmpty = false := by simpa [List.isEmpty_iff] using hne
    have hie2 : ks2.isEmpty = false := by simpa [List.isEmpty_iff] using hne2
    simp [jwksGetKey, jwksRefresh, hc2, hie, hie2, hk, hk2]
  · intro ks k hmiss hne hk
    have hie : ks.isEmpty = false := by simpa [List.isEmpty_iff] using hne
    simp [jwksGetKey, jwksRefresh, hcond, hmiss, hie, hk]
  · intro ks hmiss hne hk
    have hie : ks.isEmpty = false := by simpa [List.isEmpty_iff] using hne
    simp [jwksGetKey, jwksRefresh, hcond, hmiss, hie, hk]
  · intro hmiss
    simp only [jwksGetKey, hcond, Bool.false_eq_true, if_false, hmiss, jwksRefresh,
      List.isEmpty_nil, if_true]

/-- C7 witness: warm cache miss with rotation, and an empty-set refresh
left the old map in place. -/
theorem C7_jwks_get_key_witness :
    jwksGetKey "k2".toList 10 60 ⟨[("k1".toList, 7)], 100⟩
        (Except.ok [("k2".toList, 9)]) (Except.error ⟨ErrorCode.unauthorized, []⟩) =
      (Except.ok 9, ⟨[("k2".toList, 9)], 70⟩, 1) ∧
    jwksGetKey "k2".toList 10 60 ⟨[("k1".toList, 7)], 100⟩
        (Except.ok []) (Except.error ⟨ErrorCode.unauthorized, []⟩) =
      (Except.error ⟨ErrorCode.unauthorized, "jwks contained no rsa keys".toList⟩,
        ⟨[("k1".toList, 7)], 100⟩, 1) := by
  have h := C7_jwks_get_key "k2".toList 10 60 ⟨[("k1".toList, 7)], 100⟩
    (Except.ok [("k2".toList, 9)]) (Except.error ⟨ErrorCode.unauthorized, []⟩)
    (by decide)
  have h2 := C7_jwks_get_key "k2".toList 10 60 ⟨[("k1".toList, 7)], 100⟩
    (Except.ok []) (Except.error ⟨ErrorCode.unauthorized, []⟩)
    (by decide)
  refine ⟨?_, ?_⟩
  · exact h.2.2.2.2.1 [("k2".toList, 9)] 9 (by decide) (by decide) (by decide)
  · exact h2.2.2.2.2.2.2 (by decide)

/-! ## Expiry sweeper (`src/http/http_server.cpp` lines 733-754,
`src/metadata/sqlite_metadata_store.cpp` lines 272-301) -/

/-- Row of `multipart_parts` as the sweeper sees it (identity only). -/
structure PartRow where
  uploadId : Str
  partNumber : Int
deriving Repr, DecidableEq

/-- Database and temp-tree state the sweep operates on: upload rows,
part rows, and the set of `<temp>/multipart/<upload_id>/` directories
(represented by their upload ids). -/
structure SweepState where
  uploads : List MultipartUpload
  parts : List PartRow
  tempDirs : List Str
deriving Repr, DecidableEq

/-- Filter of `ListExpiredMultipartUploads`:
`state IN ('initiated','uploading') AND expires_at < cutoff`. -/
def sweepEligible (cutoff : Int) (u : MultipartUpload) : Bool :=
  (u.state == "initiated".toList || u.state == "uploading".toList) &&
    decide (u.expiresAt < cutoff)

/-- Embeds `SqliteMetadataStore::ListExpiredMultipartUploads`
(sqlite_metadata_store.cpp, lines 272-301): the SQL filter, `ORDER BY
expires_at ASC`, `LIMIT ?`.  The ISO-8601 TEXT comparison of the query
coincides with the numeric order of the embedded timestamps. -/
def listExpiredMultipartUploads (uploads : List MultipartUpload) (cutoff : Int)
    (limit : Nat) : List MultipartUpload :=
  (((uploads.filter (sweepEligible cutoff)).mergeSort
      (fun a b => decide (a.expiresAt ≤ b.expiresAt))).take limit)

/-- Embeds the per-upload body of `RunCleanupSweep` (http_server.cpp,
lines 744-753): set state to `expired`, delete part rows, delete the
upload row, remove the temp directory — each fire-and-forget, with
`stepOk uid i` scripting whether step `i` succeeds for upload `uid`. -/
def expireOne (st : SweepState) (uid : Str) (stepOk : Str → Nat → Bool) : SweepState :=
  let st1 := if stepOk uid 0 then
      { st with uploads := st.uploads.map (fun u =>
          if u.uploadId == uid then { u with state := "expired".toList } else u) }
    else st
  let st2 := if stepOk uid 1 then
      { st1 with parts := st1.parts.filter (fun p => !(p.uploadId == uid)) }
    else st1
  let st3 := if stepOk uid 2 then
      { st2 with uploads := st2.uploads.filter (fun u => !(u.uploadId == uid)) }
    else st2
  if stepOk uid 3 then
    { st3 with tempDirs := st3.tempDirs.filter (fun d => !(d == uid)) }
  else st3

/-- Embeds `HttpServer::RunCleanupSweep` (http_server.cpp, lines
733-754): compute `cutoff = now - grace`, list the expired uploads once,
then clean each in turn whatever the step outcomes are.  Returns the
processed list and the final state. -/
def runCleanupSweep (st : SweepState) (now grace : Int) (limit : Nat)
    (stepOk : Str → Nat → Bool) : List MultipartUpload × SweepState :=
  let cutoff := now - grace
  let expired := listExpiredMultipartUploads st.uploads cutoff limit
  (expired, expired.foldl (fun s u => expireOne s u.uploadId stepOk) st)

/-- When all four steps succeed, one cleanup round erases every trace of
the upload id and touches nothing else. -/
lemma expireOne_all_ok (st : SweepState) (uid : Str) (stepOk : Str → Nat → Bool)
    (h0 : stepOk uid 0 = true) (h1 : stepOk uid 1 = true)
    (h2 : stepOk uid 2 = true) (h3 : stepOk uid 3 = true) :
    expireOne st uid stepOk =
      ⟨st.uploads.filter (fun u => !(u.uploadId == uid)),
        st.parts.filter (fun p => !(p.uploadId == uid)),
        st.tempDirs.filter (fun d => !(d == uid))⟩ := by
  simp only [expireOne, h0, h1, h2, h3, if_true]
  congr 1
  rw [List.filter_map]
  have hpred : (fun u : MultipartUpload => !(u.uploadId == uid)) ∘
      (fun u : MultipartUpload =>
        if u.uploadId == uid then { u with state := "expired".toList } else u) =
      fun u => !(u.uploadId == uid) := by
    funext u
    simp only [Function.comp_apply]
    by_cases hu : u.uploadId = uid
    · simp [hu]
    · simp [hu]
  rw [hpred]
  have : ∀ l : List MultipartUpload,
      (l.filter (fun u => !(u.uploadId == uid))).map (fun u =>
        if u.uploadId == uid then { u with state := "expired".toList } else u) =
      l.filter (fun u => !(u.uploadId == uid)) := by
    intro l
    induction l with
    | nil => rfl
    | cons a t ih =>
      by_cases ha : a.uploadId = uid
      · have hpa : (!(a.uploadId == uid)) = false := by simp [ha]
        rw [List.filter_cons, hpa]
        simp only [Bool.false_eq_true, if_false]
        exact ih
      · have hpa : (!(a.uploadId == uid)) = true := by simp [ha]
        have hfa : (if a.uploadId == uid then { a with state := "expired".toList }
            else a) = a := by
          simp [ha]
        rw [List.filter_cons, hpa]
        simp only [if_true, List.map_cons]
        rw [hfa, ih]
  rw [this]

/-- If the state update succeeded but the row delete failed, the row
survives the round with state `expired` (showing the update-then-delete
order of the steps). -/
lemma expireOne_update_only (st : SweepState) (uid : Str) (stepOk : Str → Nat → Bool)
    (h0 : stepOk uid 0 = true) (h2 : stepOk uid 2 = false) :
    (expireOne st uid stepOk).uploads =
      st.uploads.map (fun u =>
        if u.uploadId == uid then { u with state := "expired".toList } else u) := by
  simp only [expireOne, h0, h2, if_true, Bool.false_eq_true, if_false]
  by_cases hx : stepOk uid 1 = true <;> by_cases hy : stepOk uid 3 = true <;>
    simp [hx, hy]

/-- Absence of an upload id from every component is preserved by any
cleanup round (rounds only rewrite states in place or remove rows). -/
lemma expireOne_absence (st : SweepState) (uid v : Str) (stepOk : Str → Nat → Bool)
    (hu : ∀ r ∈ st.uploads, r.uploadId ≠ uid)
    (hp : ∀ p ∈ st.parts, p.uploadId ≠ uid)
    (hd : ∀ d ∈ st.tempDirs, d ≠ uid) :
    (∀ r ∈ (expireOne st v stepOk).uploads, r.uploadId ≠ uid) ∧
    (∀ p ∈ (expireOne st v stepOk).parts, p.uploadId ≠ uid) ∧
    (∀ d ∈ (expireOne st v stepOk).tempDirs, d ≠ uid) := by
  simp only [expireOne]
  by_cases h0 : stepOk v 0 = true <;> by_cases h1 : stepOk v 1 = true <;>
    by_cases h2 : stepOk v 2 = true <;> by_cases h3 : stepOk v 3 = true <;>
    simp only [h0, h1, h2, h3, if_true, Bool.false_eq_true, if_false] <;>
    refine ⟨?_, ?_, ?_⟩ <;>
    intro r hr <;>
    first
      | (intro hq
         first
           | exact hu r (by simpa using hr) hq
           | exact hp r (by simpa using hr) hq
           | exact hd r (by simpa using hr) hq)
      | (simp only [List.mem_map] at hr
         obtain ⟨w, hw, hwr⟩ := hr
         intro hq
         apply hu w hw
         by_cases hz : w.uploadId == v
         · subst hwr
           simp only [hz, if_true] at hq ⊢
           simpa using hq
         · subst hwr
           simp only [hz, Bool.false_eq_true, if_false] at hq ⊢
           exact hq)
      | (simp only [List.mem_filter] at hr
         intro hq
         first
           | exact hu r hr.1 hq
           | exact hp r hr.1 hq
           | exact hd r hr.1 hq)
      | (simp only [List.mem_filter, List.mem_map] at hr
         obtain ⟨⟨w, hw, hwr⟩, -⟩ := hr
         intro hq
         apply hu w hw
         by_cases hz : w.uploadId == v
         · subst hwr
           simp only [hz, if_true] at hq ⊢
           simpa using hq
         · subst hwr
           simp only [hz, Bool.false_eq_true, if_false] at hq ⊢
           exact hq)

/-- The absence invariant survives a whole fold of cleanup rounds. -/
lemma sweepFold_absence (stepOk : Str → Nat → Bool) (uid : Str) :
    ∀ (l : List MultipartUpload) (s : SweepState),
      (∀ r ∈ s.uploads, r.uploadId ≠ uid) →
      (∀ p ∈ s.parts, p.uploadId ≠ uid) →
      (∀ d ∈ s.tempDirs, d ≠ uid) →
      (∀ r ∈ (l.foldl (fun s u => expireOne s u.uploadId stepOk) s).uploads,
          r.uploadId ≠ uid) ∧
      (∀ p ∈ (l.foldl (fun s u => expireOne s u.uploadId stepOk) s).parts,
          p.uploadId ≠ uid) ∧
      (∀ d ∈ (l.foldl (fun s u => expireOne s u.uploadId stepOk) s).tempDirs,
          d ≠ uid) := by
  intro l
  induction l with
  | nil =>
    intro s hu hp hd
    exact ⟨hu, hp, hd⟩
  | cons v t ih =>
    intro s hu hp hd
    obtain ⟨hu2, hp2, hd2⟩ := expireOne_absence s uid v.uploadId stepOk hu hp hd
    exact ih (expireOne s v.uploadId stepOk) hu2 hp2 hd2

/-- Once some upload in the work list carries `uid` and all four steps
succeed for `uid`, the fold's final state has no trace of `uid`. -/
lemma sweepFold_deletes (stepOk : Str → Nat → Bool) (uid : Str)
    (h0 : stepOk uid 0 = true) (h1 : stepOk uid 1 = true)
    (h2 : stepOk uid 2 = true) (h3 : stepOk uid 3 = true) :
    ∀ (l : List MultipartUpload) (s : SweepState), (∃ u ∈ l, u.uploadId = uid) →
      (∀ r ∈ (l.foldl (fun s u => expireOne s u.uploadId stepOk) s).uploads,
          r.uploadId ≠ uid) ∧
      (∀ p ∈ (l.foldl (fun s u => expireOne s u.uploadId stepOk) s).parts,
          p.uploadId ≠ uid) ∧
      (∀ d ∈ (l.foldl (fun s u => expireOne s u.uploadId stepOk) s).tempDirs,
          d ≠ uid) := by
  intro l
  induction l with
  | nil =>
    intro s hex
    obtain ⟨u, hu, -⟩ := hex
    exact absurd hu (by simp)
  | cons v t ih =>
    intro s hex
    obtain ⟨u, hu, huid⟩ := hex
    rcases List.mem_cons.mp hu with heq | hmem
    · subst heq
      have hv : u.uploadId = uid := huid
      have hstep : expireOne s u.uploadId stepOk =
          ⟨s.uploads.filter (fun r => !(r.uploadId == uid)),
            s.parts.filter (fun p => !(p.uploadId == uid)),
            s.tempDirs.filter (fun d => !(d == uid))⟩ := by
        rw [hv]
        exact expireOne_all_ok s uid stepOk h0 h1 h2 h3
      simp only [List.foldl_cons, hstep]
      refine sweepFold_absence stepOk uid t _ ?_ ?_ ?_
      · intro r hr
        have := (List.mem_filter.mp hr).2
        simpa using this
      · intro p hp
        have := (List.mem_filter.mp hp).2
        simpa using this
      · intro d hd
        have := (List.mem_filter.mp hd).2
        simpa using this
    · exact ih (expireOne s v.uploadId stepOk) ⟨u, hmem, huid⟩

/-- C8: each sweeper tick processes exactly the uploads in state
`initiated` or `uploading` whose `expires_at` precedes
`cutoff = now - grace_period`, ordered by `expires_at` ascending and
bounded by the per-sweep limit; every processed upload whose four
cleanup steps succeed ends with its upload row, part rows and temp
directory gone, a step failure only affects its own upload, and the
state is set to `expired` before the row deletion. -/
theorem C8_sweeper (st : SweepState) (now grace : Int) (limit : Nat)
    (stepOk : Str → Nat → Bool) :
    (runCleanupSweep st now grace limit stepOk).1 =
      listExpiredMultipartUploads st.uploads (now - grace) limit ∧
    (∀ u ∈ (runCleanupSweep st now grace limit stepOk).1,
      (u.state = "initiated".toList ∨ u.state = "uploading".toList) ∧
        u.expiresAt < now - grace) ∧
    List.Pairwise (fun a b => a.expiresAt ≤ b.expiresAt)
      (runCleanupSweep st now grace limit stepOk).1 ∧
    (runCleanupSweep st now grace limit stepOk).1.length =
      min limit (st.uploads.filter (sweepEligible (now - grace))).length ∧
    ((st.uploads.filter (sweepEligible (now - grace))).length ≤ limit →
      ((runCleanupSweep st now grace limit stepOk).1).Perm
        (st.uploads.filter (sweepEligible (now - grace)))) ∧
    (∀ s uid, stepOk uid 0 = true → stepOk uid 1 = true → stepOk uid 2 = true →
      stepOk uid 3 = true →
      expireOne s uid stepOk =
        ⟨s.uploads.filter (fun r => !(r.uploadId == uid)),
          s.parts.filter (fun p => !(p.uploadId == uid)),
          s.tempDirs.filter (fun d => !(d == uid))⟩) ∧
    (∀ s uid, stepOk uid 0 = true → stepOk uid 2 = false →
      (expireOne s uid stepOk).uploads =
        s.uploads.map (fun u =>
          if u.uploadId == uid then { u with state := "expired".toList } else u)) ∧
    (∀ u ∈ (runCleanupSweep st now grace limit stepOk).1,
      stepOk u.uploadId 0 = true → stepOk u.uploadId 1 = true →
      stepOk u.uploadId 2 = true → stepOk u.uploadId 3 = true →
      (∀ r ∈ (runCleanupSweep st now grace limit stepOk).2.uploads,
          r.uploadId ≠ u.uploadId) ∧
      (∀ p ∈ (runCleanupSweep st now grace limit stepOk).2.parts,
          p.uploadId ≠ u.uploadId) ∧
      (∀ d ∈ (runCleanupSweep st now grace limit stepOk).2.tempDirs,
          d ≠ u.uploadId)) := by
  have hperm := List.mergeSort_perm (st.uploads.filter (sweepEligible (now - grace)))
    (fun a b => decide (a.expiresAt ≤ b.expiresAt))
  refine ⟨rfl, ?_, ?_, ?_, ?_, ?_, ?_, ?_⟩
  · intro u hmem
    have h1 : u ∈ (st.uploads.filter (sweepEligible (now - grace))).mergeSort
        (fun a b => decide (a.expiresAt ≤ b.expiresAt)) :=
      List.mem_of_mem_take hmem
    have h2 : u ∈ st.uploads.filter (sweepEligible (now - grace)) :=
      hperm.mem_iff.mp h1
    have h3 := (List.mem_filter.mp h2).2
    simp only [sweepEligible, Bool.and_eq_true, Bool.or_eq_true, beq_iff_eq,
      decide_eq_true_eq] at h3
    exact h3
  · have hsorted := @List.sorted_mergeSort MultipartUpload
      (fun a b : MultipartUpload => decide (a.expiresAt ≤ b.expiresAt))
      (fun a b c hab hbc => by
        simp only [decide_eq_true_eq] at hab hbc ⊢
        omega)
      (fun a b => by
        simp only [Bool.or_eq_true, decide_eq_true_eq]
        omega)
      (st.uploads.filter (sweepEligible (now - grace)))
    have hsub : ((runCleanupSweep st now grace limit stepOk).1).Sublist
        ((st.uploads.filter (sweepEligible (now - grace))).mergeSort
          (fun a b => decide (a.expiresAt ≤ b.expiresAt))) :=
      List.take_sublist limit _
    exact (hsorted.sublist hsub).imp (fun h => by simpa using h)
  · have hlen : ((st.uploads.filter (sweepEligible (now - grace))).mergeSort
        (fun a b => decide (a.expiresAt ≤ b.expiresAt))).length =
        (st.uploads.filter (sweepEligible (now - grace))).length :=
      hperm.length_eq
    simp only [runCleanupSweep, listExpiredMultipartUploads, List.length_take, hlen]
  · intro hle
    have hlen : ((st.uploads.filter (sweepEligible (now - grace))).mergeSort
        (fun a b => decide (a.expiresAt ≤ b.expiresAt))).length =
        (st.uploads.filter (sweepEligible (now - grace))).length :=
      hperm.length_eq
    have htake : ((st.uploads.filter (sweepEligible (now - grace))).mergeSort
        (fun a b => decide (a.expiresAt ≤ b.expiresAt))).take limit =
        (st.uploads.filter (sweepEligible (now - grace))).mergeSort
          (fun a b => decide (a.expiresAt ≤ b.expiresAt)) :=
      List.take_of_length_le (by omega)
    simpa [runCleanupSweep, listExpiredMultipartUploads, htake] using hperm
  · intro s uid h0 h1 h2 h3
    exact expireOne_all_ok s uid stepOk h0 h1 h2 h3
  · intro s uid h0 h2
    exact expireOne_update_only s uid stepOk h0 h2
  · intro u hmem h0 h1 h2 h3
    exact sweepFold_deletes stepOk u.uploadId h0 h1 h2 h3
      (listExpiredMultipartUploads st.uploads (now - grace) limit) st
      ⟨u, hmem, rfl⟩

/-- C8 witness: one over-limit eligible upload is left for the next
sweep; the processed upload is fully erased. -/
theorem C8_sweeper_witness :
    runCleanupSweep
        ⟨[⟨"u1".toList, 1, "a".toList, "uploading".toList, 5⟩,
          ⟨"u2".toList, 1, "b".toList, "initiated".toList, 3⟩,
          ⟨"u3".toList, 1, "c".toList, "completed".toList, 1⟩],
          [⟨"u2".toList, 1⟩, ⟨"u1".toList, 2⟩],
          ["u1".toList, "u2".toList]⟩
        100 10 1 (fun _ _ => true) =
      ([⟨"u2".toList, 1, "b".toList, "initiated".toList, 3⟩],
        ⟨[⟨"u1".toList, 1, "a".toList, "uploading".toList, 5⟩,
          ⟨"u3".toList, 1, "c".toList, "completed".toList, 1⟩],
          [⟨"u1".toList, 2⟩], ["u1".toList]⟩) ∧ True ∧
    (∀ r ∈ (runCleanupSweep
        ⟨[⟨"u1".toList, 1, "a".toList, "uploading".toList, 5⟩,
          ⟨"u2".toList, 1, "b".toList, "initiated".toList, 3⟩,
          ⟨"u3".toList, 1, "c".toList, "completed".toList, 1⟩],
          [⟨"u2".toList, 1⟩, ⟨"u1".toList, 2⟩],
          ["u1".toList, "u2".toList]⟩
        100 10 1 (fun _ _ => true)).2.uploads, r.uploadId ≠ "u2".toList) := by
  refine ⟨?_, trivial, ?_⟩
  · simp [runCleanupSweep, listExpiredMultipartUploads, sweepEligible, expireOne,
      List.mergeSort]
  · have h := (C8_sweeper
      ⟨[⟨"u1".toList, 1, "a".toList, "uploading".toList, 5⟩,
        ⟨"u2".toList, 1, "b".toList, "initiated".toList, 3⟩,
        ⟨"u3".toList, 1, "c".toList, "completed".toList, 1⟩],
        [⟨"u2".toList, 1⟩, ⟨"u1".toList, 2⟩],
        ["u1".toList, "u2".toList]⟩
      100 10 1 (fun _ _ => true)).2.2.2.2.2.2.2
      ⟨"u2".toList, 1, "b".toList, "initiated".toList, 3⟩
      (by simp [runCleanupSweep, listExpiredMultipartUploads, sweepEligible,
        List.mergeSort])
      rfl rfl rfl rfl
    exact h.1

end NebulaFS
